import Mathlib

/-!
# go-datetype: the tri-valued `Date` and its driver conversions

A shallow embedding of `date.go` (package `datetype`) together with the part of
Go's standard package `time` that `date.go` calls.

* Go's `int`, `int64` and `time.Month` values are integers (`Int`); the places where
  the 64-bit representation wraps are written out with `int64` and `uint64` below.
* `(d *Date) Scan(src)` mutates its receiver and returns an error; here it takes the
  receiver's prior state and returns the new state together with the error.
* An `error` is its message, `none` standing for Go's `nil`.
-/

set_option maxRecDepth 100000

/-! ## 64-bit machine integers -/

/-- The value of a Go `uint64` expression: the mathematical value reduced mod 2^64. -/
def uint64 (x : Int) : Int := x % 18446744073709551616

/-- The value of a Go `int64` (and, on 64-bit targets, `int`) expression: the
mathematical value wrapped into the range from -2^63 up to 2^63 - 1. -/
def int64 (x : Int) : Int :=
  (x + 9223372036854775808) % 18446744073709551616 - 9223372036854775808

/-! ## Package `time` (Go standard library), as far as `date.go` uses it

`time.Date`, `Time.Year`, `Time.Month`, `Time.Day` and the clock accessors, with the
helpers they call (`norm`, `daysSinceEpoch`, `isLeap`, `absDate`, `Location.lookup`).
The package is imported by `date.go` and is not part of the repository; the
definitions follow its source in the Go releases 1.17 to 1.22.

* A `Time` is kept as what its `wall` and `ext` words encode for a value without a
  monotonic reading: the seconds since January 1 of year 1 UTC, the nanoseconds within
  the second, and the location.
* A `Location` is kept as the offsets `lookup` can return: the offset before the first
  transition and the list of transitions. Zone names, the daylight saving flag, the
  lookup cache and the rule that extends a zone past its last transition are left out.
* An expression of `+`, `-` and `*` on 64-bit integers is wrapped once, at the point
  where its value is stored, divided or compared. -/

namespace time

/-- A month of the year: `type Month int`, January = 1. -/
abbrev Month := Int

def January : Month := 1
def February : Month := 2
def March : Month := 3
def April : Month := 4
def November : Month := 11
def December : Month := 12

def secondsPerMinute : Int := 60
def secondsPerHour : Int := 60 * secondsPerMinute
def secondsPerDay : Int := 24 * secondsPerHour
def daysPer400Years : Int := 365 * 400 + 97
def daysPer100Years : Int := 365 * 100 + 24
def daysPer4Years : Int := 365 * 4 + 1

/-- The year of the zero of the absolute (unsigned) time scale. -/
def absoluteZeroYear : Int := -292277022399

/-- The constant `(absoluteZeroYear - internalYear) * 365.2425 * secondsPerDay`. -/
def absoluteToInternal : Int := (absoluteZeroYear - 1) * 31556952
def internalToAbsolute : Int := -absoluteToInternal
def unixToInternal : Int := (1969 * 365 + 1969 / 4 - 1969 / 100 + 1969 / 400) * secondsPerDay
def internalToUnix : Int := -unixToInternal

/-- The table `daysBefore`: the days of a non-leap year before month `m + 1` begins. -/
def daysBeforeTable : List Int :=
  [0, 31, 59, 90, 120, 151, 181, 212, 243, 273, 304, 334, 365]

/-- The entry `daysBefore[i]`. -/
def daysBefore (i : Int) : Int := daysBeforeTable.getD i.toNat 0

/-- The function `isLeap`: `year%4 == 0 && (year%100 != 0 || year%400 == 0)`,
with Go's truncated remainder. -/
def isLeap (year : Int) : Bool :=
  year.tmod 4 == 0 && (year.tmod 100 != 0 || year.tmod 400 == 0)

/-- The function `daysIn`: the number of days of month `m` in `year`. -/
def daysIn (m : Month) (year : Int) : Int :=
  if m = February ∧ isLeap year = true then 29
  else daysBefore m - daysBefore (m - 1)

/-- The function `norm`: carries `lo` into `hi` so that `0 <= lo < base`. -/
def norm (hi lo base : Int) : Int × Int :=
  let p : Int × Int :=
    if lo < 0 then
      let n := int64 ((int64 (-lo - 1)).tdiv base + 1)
      (int64 (hi - n), int64 (lo + n * base))
    else (hi, lo)
  if p.2 ≥ base then
    let n := p.2.tdiv base
    (int64 (p.1 + n), int64 (p.2 - n * base))
  else p

/-- The function `daysSinceEpoch`: days from the absolute epoch to January 1 of
`year`, computed in `uint64`. -/
def daysSinceEpoch (year : Int) : Int :=
  let y := uint64 (year - absoluteZeroYear)
  let n := y / 400
  let y := uint64 (y - 400 * n)
  let d := uint64 (daysPer400Years * n)
  let n := y / 100
  let y := uint64 (y - 100 * n)
  let d := uint64 (d + daysPer100Years * n)
  let n := y / 4
  let y := uint64 (y - 4 * n)
  let d := uint64 (d + daysPer4Years * n)
  let n := y
  uint64 (d + 365 * n)

/-- One change of a zone's offset: from the Unix second `when` on, local time is
`offset` seconds east of UTC (the `zoneTrans` entry with the offset of its zone). -/
structure zoneTrans where
  when : Int
  offset : Int
deriving DecidableEq, Repr

/-- A time zone. `first` is the offset in force before the first transition (the zone
`lookupFirstZone` selects); `tx` lists the transitions in ascending order of `when`.
A location without transitions has a fixed offset. A nil `*Location` is not a zone
(`time.Date` refuses it) and is not represented. -/
structure Location where
  name : String
  first : Int
  tx : List zoneTrans
deriving DecidableEq, Repr

/-- The location `time.UTC`. -/
def UTC : Location := { name := "UTC", first := 0, tx := [] }

/-- The result `time.FixedZone(name, offset)`. -/
def FixedZone (name : String) (offset : Int) : Location :=
  { name := name, first := offset, tx := [] }

/-- The least `int64`, the start of time for `lookup`. -/
def alpha : Int := -9223372036854775808
/-- The greatest `int64`, the end of time for `lookup`. -/
def omega : Int := 9223372036854775807

/-- The search of `lookup` for the transition in force at `sec`, given the offset
and start of the period reached so far; returns offset, start and end of the period. -/
def lookupFrom (sec : Int) (offset start : Int) : List zoneTrans → Int × Int × Int
  | [] => (offset, start, omega)
  | t :: rest =>
    if sec < t.when then (offset, start, t.when)
    else lookupFrom sec t.offset t.when rest

/-- The method `(*Location).lookup`: the offset in use at Unix second `sec` and the
bounds `start <= sec < end` of the period in which it applies. -/
def Location.lookup (l : Location) (sec : Int) : Int × Int × Int :=
  lookupFrom sec l.first alpha l.tx

/-- An instant with a location. -/
structure Time where
  sec : Int
  nsec : Int
  loc : Location
deriving DecidableEq, Repr

/-- The function `unixTime` followed by `setLoc`. -/
def unixTime (sec nsec : Int) (loc : Location) : Time :=
  { sec := int64 (sec + unixToInternal), nsec := nsec, loc := loc }

/-- The function `time.Date`. -/
def Date (year : Int) (month : Month) (day hour min sec nsec : Int) (loc : Location) : Time :=
  -- Normalize month, overflowing into year.
  let m := int64 (month - 1)
  let ym := norm year m 12
  let year := ym.1
  let month : Month := int64 (ym.2 + 1)
  -- Normalize nsec, sec, min, hour, overflowing into day.
  let sn := norm sec nsec 1000000000
  let ms := norm min sn.1 60
  let hm := norm hour ms.1 60
  let dh := norm day hm.1 24
  let nsec := sn.2
  let sec := ms.2
  let min := hm.2
  let hour := dh.2
  let day := dh.1
  -- Compute days since the absolute epoch.
  let d := daysSinceEpoch year
  -- Add in days before this month.
  let d := uint64 (d + daysBefore (month - 1))
  let d := if isLeap year = true ∧ month ≥ March then uint64 (d + 1) else d
  -- Add in days before today.
  let d := uint64 (d + (day - 1))
  -- Add in time elapsed today.
  let abs := uint64 (d * secondsPerDay)
  let abs := uint64 (abs + (hour * secondsPerHour + min * secondsPerMinute + sec))
  let unix := int64 (abs + (absoluteToInternal + internalToUnix))
  -- Look for zone offset for the expected time, so we can adjust to UTC.
  let z := loc.lookup unix
  let offset := z.1
  let start := z.2.1
  let stop := z.2.2
  let unix :=
    if offset ≠ 0 then
      let utc := int64 (unix - offset)
      -- If utc is valid for the time zone we found, then we have the right offset.
      -- If not, we get the correct offset by looking up utc in the location.
      let offset := if utc < start ∨ utc ≥ stop then (loc.lookup utc).1 else offset
      int64 (unix - offset)
    else unix
  unixTime unix nsec loc

/-- The method `unixSec`: seconds since the Unix epoch. -/
def Time.unixSec (t : Time) : Int := int64 (t.sec + internalToUnix)

/-- The method `abs`: seconds since the absolute epoch, read in the time's location. -/
def Time.abs (t : Time) : Int :=
  let sec := t.unixSec
  let sec := int64 (sec + (t.loc.lookup sec).1)
  uint64 (sec + (unixToInternal + internalToAbsolute))

/-- The function `absDate` with `full = true`: year, month, day and day of the year. -/
def absDate (abs : Int) : Int × Month × Int × Int :=
  -- Split into time and day.
  let d := abs / secondsPerDay
  -- Account for 400 year cycles.
  let n := d / daysPer400Years
  let y := uint64 (400 * n)
  let d := uint64 (d - daysPer400Years * n)
  -- Cut off 100-year cycles.
  let n := d / daysPer100Years
  let n := uint64 (n - n / 4)
  let y := uint64 (y + 100 * n)
  let d := uint64 (d - daysPer100Years * n)
  -- Cut off 4-year cycles.
  let n := d / daysPer4Years
  let y := uint64 (y + 4 * n)
  let d := uint64 (d - daysPer4Years * n)
  -- Cut off years within a 4-year cycle.
  let n := d / 365
  let n := uint64 (n - n / 4)
  let y := uint64 (y + n)
  let d := uint64 (d - 365 * n)
  let year := int64 (int64 y + absoluteZeroYear)
  let yday := d
  if isLeap year = true ∧ yday = 31 + 29 - 1 then
    -- Leap day.
    (year, February, 29, yday)
  else
    -- After leap day; pretend it wasn't there.
    let day := if isLeap year = true ∧ yday > 31 + 29 - 1 then yday - 1 else yday
    -- Estimate month on assumption that every month has 31 days.
    let month : Month := day.tdiv 31
    let e := daysBefore (month + 1)
    let (month, begin) := if day ≥ e then (month + 1, e) else (month, daysBefore month)
    (year, month + 1, day - begin + 1, yday)

/-- The method `Year`. -/
def Time.Year (t : Time) : Int := (absDate t.abs).1
/-- The method `Month`. -/
def Time.Month (t : Time) : Month := (absDate t.abs).2.1
/-- The method `Day`. -/
def Time.Day (t : Time) : Int := (absDate t.abs).2.2.1
/-- The method `Hour`. -/
def Time.Hour (t : Time) : Int := (t.abs % secondsPerDay).tdiv secondsPerHour
/-- The method `Minute`. -/
def Time.Minute (t : Time) : Int := (t.abs % secondsPerHour).tdiv secondsPerMinute
/-- The method `Second`. -/
def Time.Second (t : Time) : Int := t.abs % secondsPerMinute
/-- The method `Nanosecond`. -/
def Time.Nanosecond (t : Time) : Int := t.nsec

/-! ### Calendar quantities used to state what `time.Date` and `absDate` compute -/

/-- Days from the absolute epoch to the first day of the year `Y` years after it. -/
def cycleDays (Y : Int) : Int :=
  146097 * (Y / 400) + 36524 * (Y % 400 / 100) + 1461 * (Y % 100 / 4) + 365 * (Y % 4)

/-- The month and day that `absDate` derives from the day of the year. -/
def monthDay (leap : Bool) (yday : Int) : Month × Int :=
  if leap = true ∧ yday = 31 + 29 - 1 then (February, 29)
  else
    let day := if leap = true ∧ yday > 31 + 29 - 1 then yday - 1 else yday
    let month : Month := day.tdiv 31
    let e := daysBefore (month + 1)
    let (month, begin) := if day ≥ e then (month + 1, e) else (month, daysBefore month)
    (month + 1, day - begin + 1)

/-- The day of the year, counted from 0, of day `day` of month `m`. -/
def yearDay (leap : Bool) (m day : Int) : Int :=
  daysBefore (m - 1) + (if leap = true ∧ m ≥ 3 then 1 else 0) + (day - 1)

/-- The seconds from the absolute epoch to midnight of a calendar date. -/
def civilAbs (y m day : Int) : Int :=
  (cycleDays (y + 292277022399) + yearDay (isLeap y) m day) * 86400

/-- The last step of `time.Date`: the Unix second `unix` of a wall clock reading taken
as UTC, moved to the instant with that reading in `loc`. -/
def zoneAdjust (loc : Location) (unix : Int) : Int :=
  if (loc.lookup unix).1 ≠ 0 then
    int64 (unix - (if int64 (unix - (loc.lookup unix).1) < (loc.lookup unix).2.1
        ∨ int64 (unix - (loc.lookup unix).1) ≥ (loc.lookup unix).2.2
      then (loc.lookup (int64 (unix - (loc.lookup unix).1))).1 else (loc.lookup unix).1))
  else unix

/-- The transitions of a location are in ascending order of time, as `lookup`
requires of them. -/
abbrev Location.ascending (l : Location) : Prop :=
  l.tx.Pairwise (fun a b => a.when ≤ b.when)

/-- The offset of `l` at the Unix second `u` is zero, or the period in which it
applies also holds the second `u - offset`: no change of offset separates a wall clock
reading taken as UTC from the same reading taken in `l`. -/
abbrev Location.steadyAt (l : Location) (u : Int) : Prop :=
  (l.lookup u).1 = 0 ∨
    ((l.lookup u).2.1 ≤ int64 (u - (l.lookup u).1) ∧
      int64 (u - (l.lookup u).1) < (l.lookup u).2.2)

/-- The tuple `(y, m, day)` names a day of the proleptic Gregorian calendar. -/
abbrev calendarDate (y : Int) (m : Month) (day : Int) : Prop :=
  1 ≤ m ∧ m ≤ 12 ∧ 1 ≤ day ∧ day ≤ daysIn m y

/-- The years all of whose days `time.Date` places on its 64-bit second counters
without wrapping. -/
abbrev yearInRange (y : Int) : Prop :=
  -292277022399 ≤ y ∧ y ≤ 292277026595

/-- The offset search of `time.Date` ends on an instant of `l` that has the wall
clock reading it was given: with `u` the reading taken as a UTC instant, `o1` the
offset of `l` at `u` and `o2` the offset of `l` at `u - o1`, the offset of `l` at
`u - o2` is `o2`, so that `l` shows the reading at `u - o2`. -/
abbrev Location.settlesAt (l : Location) (u : Int) : Prop :=
  (l.lookup (int64 (u - (l.lookup (int64 (u - (l.lookup u).1))).1))).1
    = (l.lookup (int64 (u - (l.lookup u).1))).1

/-- The offsets of a location are `int` values. -/
abbrev Location.offsetsInt (l : Location) : Prop :=
  (-9223372036854775808 ≤ l.first ∧ l.first < 9223372036854775808) ∧
    ∀ t ∈ l.tx, -9223372036854775808 ≤ t.offset ∧ t.offset < 9223372036854775808

/-- The instant `t` is midnight of day `day` of month `m` of year `y` on the clock of
its location `z`. -/
abbrev Time.isMidnightOf (t : Time) (y : Int) (m : time.Month) (day : Int) (z : Location) :
    Prop :=
  t.Year = y ∧ t.Month = m ∧ t.Day = day ∧ t.Hour = 0 ∧ t.Minute = 0 ∧ t.Second = 0 ∧
    t.Nanosecond = 0 ∧ t.loc = z

/-- An excerpt of Europe/Moscow: UTC+3, UTC+4 from 27 March 2011, UTC+3 again from
26 October 2014. -/
def moscow : Location :=
  { name := "Europe/Moscow", first := 10800,
    tx := [⟨1301180400, 14400⟩, ⟨1414274400, 10800⟩] }

/-- An excerpt of America/Sao_Paulo: UTC-3, with daylight saving time (UTC-2) from
local midnight of 4 November 2018 to local midnight of 17 February 2019. -/
def saoPaulo : Location :=
  { name := "America/Sao_Paulo", first := -10800,
    tx := [⟨1541300400, -7200⟩, ⟨1550368800, -10800⟩] }

end time

/-! ## Package `datetype` (`date.go`) -/

namespace datetype

/-- The type `InfinityModifier` (`int8`): a date's infinity status. Any integer can be
stored in the field, not only the three named constants. -/
abbrev InfinityModifier := Int

/-- Negative infinity: `iota - 1` at the first position. -/
def NegativeInfinity : InfinityModifier := -1
/-- A date that is not equal to infinity or negative infinity. -/
def None : InfinityModifier := 0
/-- Positive infinity. -/
def Infinity : InfinityModifier := 1

def infinityStr : String := "infinity"
def negativeInfinityStr : String := "-infinity"

/-- The struct `Date`; an omitted field of a composite literal has its zero value. -/
structure Date where
  Year : Int := 0
  Month : time.Month := 0
  Day : Int := 0
  Valid : Bool := false
  InfinityModifier : InfinityModifier := 0
deriving DecidableEq, Repr

/-- Returns a null date. -/
def NewNullDate : Date := { Year := 1, Month := time.January, Day := 1 }

/-- Returns a date with the specified year, month and day. -/
def NewDate (year : Int) (month : time.Month) (day : Int) : Date :=
  { Year := year, Month := month, Day := day, Valid := true }

/-- Returns a date equal to infinity. -/
def NewInfinityDate : Date :=
  { Year := 1, Month := time.January, Day := 1, Valid := true, InfinityModifier := Infinity }

/-- Returns a date equal to negative infinity. -/
def NewNegativeInfinityDate : Date :=
  { Year := 1, Month := time.January, Day := 1, Valid := true,
    InfinityModifier := NegativeInfinity }

/-- The method `Date.Time`: the time corresponding to this date in timezone `loc`. -/
def Date.Time (d : Date) (loc : time.Location) : time.Time :=
  if d.Valid = false ∨ d.InfinityModifier ≠ None then
    time.Date 1 time.January 1 0 0 0 0 loc
  else
    time.Date d.Year d.Month d.Day 0 0 0 0 loc

/-- The dynamic value handed to `Scan` as `src interface{}`: the nil interface, a
`time.Time`, a `string`, an `int64`, or a value of any other dynamic type, which `Scan`
reads only through its `%#v` rendering and its `%T` type name. -/
inductive Src where
  | nil
  | time (t : time.Time)
  | string (s : String)
  | int64 (n : Int)
  | other (goSyntax typeName : String)
deriving DecidableEq, Repr

/-- A Go `error`: its message, or `none` for nil. -/
abbrev error := Option String

/-- The method `Date.Scan` (database/sql `Scanner`): the receiver after the call and
the returned error. -/
def Date.Scan (d : Date) (src : Src) : Date × error :=
  let d := { d with Year := 1 }
  let d := { d with Month := time.January }
  let d := { d with Day := 1 }
  match src with
  | .nil => (d, none)
  | .time srcValue =>
    let d := { d with Year := srcValue.Year }
    let d := { d with Month := srcValue.Month }
    let d := { d with Day := srcValue.Day }
    let d := { d with Valid := true }
    (d, none)
  | .string srcValue =>
    if srcValue = infinityStr then
      let d := { d with Valid := true }
      let d := { d with InfinityModifier := Infinity }
      (d, none)
    else if srcValue = negativeInfinityStr then
      let d := { d with Valid := true }
      let d := { d with InfinityModifier := NegativeInfinity }
      (d, none)
    else (d, some ("unexpected string value " ++ srcValue))
  | .int64 n =>
    (d, some ("value " ++ toString n ++ " has unexpected type " ++ "int64"))
  | .other goSyntax typeName =>
    (d, some ("value " ++ goSyntax ++ " has unexpected type " ++ typeName))

/-- A `driver.Value` as `Value` produces it: nil, a `string` or a `time.Time`. -/
inductive DriverValue where
  | nil
  | string (s : String)
  | time (t : time.Time)
deriving DecidableEq, Repr

/-- The method `Date.Value` (database/sql/driver `Valuer`): the driver value and the
error. -/
def Date.Value (d : Date) : DriverValue × error :=
  if d.Valid = false then (.nil, none)
  else if d.InfinityModifier = Infinity then (.string infinityStr, none)
  else if d.InfinityModifier = NegativeInfinity then (.string negativeInfinityStr, none)
  else (.time (d.Time time.UTC), none)

/-- A driver value handed back verbatim as the input of `Scan`. -/
def DriverValue.toSrc : DriverValue → Src
  | .nil => .nil
  | .string s => .string s
  | .time t => .time t

/-- The zero-valued receiver `var date Date`. -/
def zeroDate : Date := {}

/-- The round trip of the driver: `Value`, the driver value handed back verbatim, and
`Scan` of it into a zero-valued receiver. -/
def roundTrip (d : Date) : Date × error := zeroDate.Scan d.Value.1.toSrc


/-- Well-formedness of a `Date`: `InfinityModifier` is one of the three constants, and
a date with `Valid` false holds the placeholder 1 January of year 1 with
`InfinityModifier = None`. -/
abbrev WF (d : Date) : Prop :=
  (d.InfinityModifier = NegativeInfinity ∨ d.InfinityModifier = None ∨
      d.InfinityModifier = Infinity) ∧
    (d.Valid = false →
      d.Year = 1 ∧ d.Month = time.January ∧ d.Day = 1 ∧ d.InfinityModifier = None)

/-- The date is one of the two infinities: it equals `NewInfinityDate()` or
`NewNegativeInfinityDate()`. -/
abbrev isInfinity (d : Date) : Prop :=
  d = NewInfinityDate ∨ d = NewNegativeInfinityDate

/-- The method `Value` encodes the date as one of the two sentinel texts. -/
abbrev encodesInfinity (d : Date) : Prop :=
  d.Value.1 = .string "infinity" ∨ d.Value.1 = .string "-infinity"

end datetype

/-! ## Lemmas on the 64-bit arithmetic and the calendar of package `time` -/

namespace time

theorem uint64_of_range {x : Int} (h0 : 0 ≤ x) (h1 : x < 18446744073709551616) : uint64 x = x := by
  unfold uint64; omega

theorem int64_of_range {x : Int} (h0 : -9223372036854775808 ≤ x) (h1 : x < 9223372036854775808) :
    int64 x = x := by
  unfold int64; omega

theorem norm_in_range (hi lo base : Int) (h0 : 0 ≤ lo) (h1 : lo < base) :
    norm hi lo base = (hi, lo) := by
  unfold norm
  simp only [if_neg (not_lt.mpr h0), ge_iff_le, if_neg (not_le.mpr h1)]

theorem isLeap_iff (y : Int) :
    isLeap y = true ↔ (y % 4 = 0 ∧ (y % 100 ≠ 0 ∨ y % 400 = 0)) := by
  have h4 : y.tmod 4 = 0 ↔ y % 4 = 0 := by
    rw [← Int.dvd_iff_tmod_eq_zero, Int.dvd_iff_emod_eq_zero]
  have h100 : y.tmod 100 = 0 ↔ y % 100 = 0 := by
    rw [← Int.dvd_iff_tmod_eq_zero, Int.dvd_iff_emod_eq_zero]
  have h400 : y.tmod 400 = 0 ↔ y % 400 = 0 := by
    rw [← Int.dvd_iff_tmod_eq_zero, Int.dvd_iff_emod_eq_zero]
  simp [isLeap, h4, h100, h400]

theorem daysSinceEpoch_eq (year : Int) (h0 : -292277022399 ≤ year) (h1 : year ≤ 292277028823) :
    daysSinceEpoch year = cycleDays (year + 292277022399) := by
  unfold daysSinceEpoch cycleDays absoluteZeroYear daysPer400Years daysPer100Years daysPer4Years
  simp only []
  have e1 : uint64 (year - -292277022399) = year + 292277022399 := by
    rw [uint64_of_range] <;> omega
  rw [e1]
  have hY0 : 0 ≤ year + 292277022399 := by omega
  have hY1 : year + 292277022399 ≤ 584554051222 := by omega
  generalize year + 292277022399 = Y at *
  have e2 : uint64 (Y - 400 * (Y / 400)) = Y % 400 := by
    rw [uint64_of_range] <;> omega
  rw [e2]
  have e3 : uint64 ((365 * 400 + 97) * (Y / 400)) = 146097 * (Y / 400) := by
    rw [uint64_of_range] <;> omega
  rw [e3]
  have e4 : uint64 (Y % 400 - 100 * (Y % 400 / 100)) = Y % 100 := by
    rw [uint64_of_range] <;> omega
  rw [e4]
  have e5 : uint64 (146097 * (Y / 400) + (365 * 100 + 24) * (Y % 400 / 100))
      = 146097 * (Y / 400) + 36524 * (Y % 400 / 100) := by
    rw [uint64_of_range] <;> omega
  rw [e5]
  have e6 : uint64 (Y % 100 - 4 * (Y % 100 / 4)) = Y % 4 := by
    rw [uint64_of_range] <;> omega
  rw [e6]
  have e7 : uint64 (146097 * (Y / 400) + 36524 * (Y % 400 / 100) + (365 * 4 + 1) * (Y % 100 / 4))
      = 146097 * (Y / 400) + 36524 * (Y % 400 / 100) + 1461 * (Y % 100 / 4) := by
    rw [uint64_of_range] <;> omega
  rw [e7]
  rw [uint64_of_range] <;> omega

theorem cycle_step100 (b c e yd : Int) (hb0 : 0 ≤ b) (hb1 : b ≤ 3) (hc0 : 0 ≤ c) (hc1 : c ≤ 24)
    (he0 : 0 ≤ e) (he1 : e ≤ 3) (hyd0 : 0 ≤ yd)
    (hyd : yd < 365 ∨ (yd = 365 ∧ e = 3 ∧ (c ≠ 24 ∨ b = 3))) :
    (36524 * b + 1461 * c + 365 * e + yd) / 36524
      - (36524 * b + 1461 * c + 365 * e + yd) / 36524 / 4 = b := by
  have hb : b = 0 ∨ b = 1 ∨ b = 2 ∨ b = 3 := by omega
  rcases hb with rfl | rfl | rfl | rfl <;> omega

theorem cycle_step1 (e yd : Int) (he0 : 0 ≤ e) (he1 : e ≤ 3) (hyd0 : 0 ≤ yd)
    (hyd : yd < 365 ∨ (yd = 365 ∧ e = 3)) :
    (365 * e + yd) / 365 - (365 * e + yd) / 365 / 4 = e := by
  have he : e = 0 ∨ e = 1 ∨ e = 2 ∨ e = 3 := by omega
  rcases he with rfl | rfl | rfl | rfl <;> omega

theorem absDate_cycle (a b c e yd tod : Int) (ha0 : 0 ≤ a) (ha1 : a ≤ 1461385128)
    (hb0 : 0 ≤ b) (hb1 : b ≤ 3) (hc0 : 0 ≤ c) (hc1 : c ≤ 24) (he0 : 0 ≤ e) (he1 : e ≤ 3)
    (hyd0 : 0 ≤ yd) (hyd : yd < 365 ∨ (yd = 365 ∧ e = 3 ∧ (c ≠ 24 ∨ b = 3)))
    (ht0 : 0 ≤ tod) (ht1 : tod < 86400) :
    absDate ((146097 * a + 36524 * b + 1461 * c + 365 * e + yd) * 86400 + tod) =
      (400 * a + 100 * b + 4 * c + e - 292277022399,
        (monthDay (isLeap (400 * a + 100 * b + 4 * c + e - 292277022399)) yd).1,
        (monthDay (isLeap (400 * a + 100 * b + 4 * c + e - 292277022399)) yd).2, yd) := by
  have hyd1 : yd < 365 ∨ (yd = 365 ∧ e = 3) := by omega
  have d0 : ((146097 * a + 36524 * b + 1461 * c + 365 * e + yd) * 86400 + tod) / 86400
      = 146097 * a + 36524 * b + 1461 * c + 365 * e + yd := by omega
  have n1 : (146097 * a + 36524 * b + 1461 * c + 365 * e + yd) / 146097 = a := by
    have hb : b = 0 ∨ b = 1 ∨ b = 2 ∨ b = 3 := by omega
    rcases hb with rfl | rfl | rfl | rfl <;> omega
  have y1 : uint64 (400 * a) = 400 * a := by rw [uint64_of_range] <;> omega
  have d1 : uint64 (146097 * a + 36524 * b + 1461 * c + 365 * e + yd - 146097 * a)
      = 36524 * b + 1461 * c + 365 * e + yd := by rw [uint64_of_range] <;> omega
  have n2 : uint64 ((36524 * b + 1461 * c + 365 * e + yd) / 36524
      - (36524 * b + 1461 * c + 365 * e + yd) / 36524 / 4) = b := by
    rw [cycle_step100 b c e yd hb0 hb1 hc0 hc1 he0 he1 hyd0 hyd, uint64_of_range] <;> omega
  have y2 : uint64 (400 * a + 100 * b) = 400 * a + 100 * b := by rw [uint64_of_range] <;> omega
  have d2 : uint64 (36524 * b + 1461 * c + 365 * e + yd - 36524 * b)
      = 1461 * c + 365 * e + yd := by rw [uint64_of_range] <;> omega
  have n3 : (1461 * c + 365 * e + yd) / 1461 = c := by omega
  have y3 : uint64 (400 * a + 100 * b + 4 * c) = 400 * a + 100 * b + 4 * c := by
    rw [uint64_of_range] <;> omega
  have d3 : uint64 (1461 * c + 365 * e + yd - 1461 * c) = 365 * e + yd := by
    rw [uint64_of_range] <;> omega
  have n4 : uint64 ((365 * e + yd) / 365 - (365 * e + yd) / 365 / 4) = e := by
    rw [cycle_step1 e yd he0 he1 hyd0 hyd1, uint64_of_range] <;> omega
  have y4 : uint64 (400 * a + 100 * b + 4 * c + e) = 400 * a + 100 * b + 4 * c + e := by
    rw [uint64_of_range] <;> omega
  have d4 : uint64 (365 * e + yd - 365 * e) = yd := by
    rw [uint64_of_range] <;> omega
  have yi : int64 (400 * a + 100 * b + 4 * c + e) = 400 * a + 100 * b + 4 * c + e :=
    int64_of_range (by omega) (by omega)
  have yr : int64 (int64 (400 * a + 100 * b + 4 * c + e) + -292277022399)
      = 400 * a + 100 * b + 4 * c + e - 292277022399 := by
    rw [yi, int64_of_range] <;> omega
  have hsd : secondsPerDay = 86400 := rfl
  have h400 : daysPer400Years = 146097 := rfl
  have h100 : daysPer100Years = 36524 := rfl
  have h4 : daysPer4Years = 1461 := rfl
  have hz : absoluteZeroYear = -292277022399 := rfl
  unfold absDate monthDay
  simp only [hsd, h400, h100, h4, hz, d0, n1, y1, d1, n2, y2, d2, n3, y3, d3, n4, y4, d4, yr]
  by_cases hl : isLeap (400 * a + 100 * b + 4 * c + e - 292277022399) = true ∧ yd = 31 + 29 - 1
  · simp only [hl, and_self, if_true]
  · simp only [hl, if_false]

theorem absDate_days (Y yd tod : Int) (hY0 : 0 ≤ Y) (hY1 : Y ≤ 584554051222)
    (hyd0 : 0 ≤ yd)
    (hyd : yd < 365 ∨ (yd = 365 ∧ Y % 4 = 3 ∧ (Y % 100 ≠ 99 ∨ Y % 400 = 399)))
    (ht0 : 0 ≤ tod) (ht1 : tod < 86400) :
    absDate ((cycleDays Y + yd) * 86400 + tod) =
      (Y - 292277022399, (monthDay (isLeap (Y - 292277022399)) yd).1,
        (monthDay (isLeap (Y - 292277022399)) yd).2, yd) := by
  have hYeq : 400 * (Y / 400) + 100 * (Y % 400 / 100) + 4 * (Y % 100 / 4) + Y % 4 = Y := by omega
  have key := absDate_cycle (Y / 400) (Y % 400 / 100) (Y % 100 / 4) (Y % 4) yd tod
    (by omega) (by omega) (by omega) (by omega) (by omega) (by omega) (by omega) (by omega)
    hyd0 (by omega) ht0 ht1
  rw [hYeq] at key
  exact key


theorem monthDay_of_civil (leap : Bool) (m day : Int) (hm1 : 1 ≤ m) (hm2 : m ≤ 12)
    (hd1 : 1 ≤ day)
    (hd2 : day ≤ (if m = 2 ∧ leap = true then 29 else daysBefore m - daysBefore (m - 1))) :
    monthDay leap (daysBefore (m - 1) + (if leap = true ∧ m ≥ 3 then 1 else 0) + (day - 1))
      = (m, day) := by
  have hd3 : day ≤ 31 := by
    interval_cases m <;> cases leap <;> simp [daysBefore, daysBeforeTable] at hd2 <;> omega
  interval_cases m <;> cases leap <;> simp [daysBefore, daysBeforeTable] at hd2 <;>
    interval_cases day <;> rfl


theorem yearDay_bounds (leap : Bool) (m day : Int) (hm1 : 1 ≤ m) (hm2 : m ≤ 12)
    (hd1 : 1 ≤ day)
    (hd2 : day ≤ (if m = 2 ∧ leap = true then 29 else daysBefore m - daysBefore (m - 1))) :
    0 ≤ daysBefore (m - 1) ∧ daysBefore (m - 1) ≤ 334 ∧ 0 ≤ yearDay leap m day ∧
      (yearDay leap m day < 365 ∨ (yearDay leap m day = 365 ∧ leap = true)) := by
  unfold yearDay
  interval_cases m <;> cases leap <;> simp [daysBefore, daysBeforeTable] at hd2 ⊢ <;> omega

theorem cycleDays_bounds (Y : Int) (h0 : 0 ≤ Y) (h1 : Y ≤ 584554048994) :
    0 ≤ cycleDays Y ∧ cycleDays Y ≤ 213503982239998 := by
  unfold cycleDays
  omega

theorem Date_midnight (y m day : Int) (loc : Location)
    (hy0 : -292277022399 ≤ y) (hy1 : y ≤ 292277026595)
    (hm1 : 1 ≤ m) (hm2 : m ≤ 12) (hd1 : 1 ≤ day) (hd2 : day ≤ daysIn m y) :
    Date y m day 0 0 0 0 loc =
      unixTime (zoneAdjust loc (int64 (civilAbs y m day + (absoluteToInternal + internalToUnix))))
        0 loc := by
  have hd2' : day ≤ (if m = 2 ∧ isLeap y = true then 29 else daysBefore m - daysBefore (m - 1)) := hd2
  obtain ⟨hb0, hb1, hyd0, hyd1⟩ := yearDay_bounds (isLeap y) m day hm1 hm2 hd1 hd2'
  obtain ⟨hc0, hc1⟩ := cycleDays_bounds (y + 292277022399) (by omega) (by omega)
  have hn0 : norm 0 0 1000000000 = (0, 0) := by decide
  have hn1 : norm 0 0 60 = (0, 0) := by decide
  have hn2 : norm day 0 24 = (day, 0) := norm_in_range day 0 24 (by omega) (by omega)
  have hm : int64 (m - 1) = m - 1 := by rw [int64_of_range] <;> omega
  have hn3 : norm y (m - 1) 12 = (y, m - 1) := norm_in_range y (m - 1) 12 (by omega) (by omega)
  have hm' : int64 (m - 1 + 1) = m := by rw [int64_of_range] <;> omega
  unfold Date zoneAdjust civilAbs
  simp only [hn0, hn1, hn2, hm, hn3, hm', daysSinceEpoch_eq y hy0 (by omega)]
  unfold yearDay at hyd0 hyd1 ⊢
  have hM : March = 3 := rfl
  have hsd : secondsPerDay = 86400 := rfl
  have hsh : secondsPerHour = 3600 := rfl
  have hsm : secondsPerMinute = 60 := rfl
  simp only [hM, hsd, hsh, hsm]
  generalize cycleDays (y + 292277022399) = C at *
  generalize daysBefore (m - 1) = B at *
  have e1 : uint64 (C + B) = C + B := by rw [uint64_of_range] <;> omega
  rw [e1]
  by_cases hl : isLeap y = true ∧ m ≥ 3
  · simp only [hl, and_self, if_true] at hyd0 hyd1 ⊢
    have e2 : uint64 (C + B + 1) = C + B + 1 := by rw [uint64_of_range] <;> omega
    have e3 : uint64 (C + B + 1 + (day - 1)) = C + (B + 1 + (day - 1)) := by
      rw [uint64_of_range] <;> omega
    have e4 : uint64 ((C + (B + 1 + (day - 1))) * 86400) = (C + (B + 1 + (day - 1))) * 86400 := by
      rw [uint64_of_range] <;> omega
    have e5 : uint64 ((C + (B + 1 + (day - 1))) * 86400 + (0 * 3600 + 0 * 60 + 0))
        = (C + (B + 1 + (day - 1))) * 86400 := by
      rw [uint64_of_range] <;> omega
    rw [e2, e3, e4, e5]
  · simp only [hl, if_false] at hyd0 hyd1 ⊢
    have e3 : uint64 (C + B + (day - 1)) = C + (B + 0 + (day - 1)) := by
      rw [uint64_of_range] <;> omega
    have e4 : uint64 ((C + (B + 0 + (day - 1))) * 86400) = (C + (B + 0 + (day - 1))) * 86400 := by
      rw [uint64_of_range] <;> omega
    have e5 : uint64 ((C + (B + 0 + (day - 1))) * 86400 + (0 * 3600 + 0 * 60 + 0))
        = (C + (B + 0 + (day - 1))) * 86400 := by
      rw [uint64_of_range] <;> omega
    rw [e3, e4, e5]


theorem lookupFrom_start_le (sec : Int) (tx : List zoneTrans) :
    ∀ (off start : Int), (∀ t ∈ tx, start ≤ t.when) →
      tx.Pairwise (fun a b => a.when ≤ b.when) →
      start ≤ (lookupFrom sec off start tx).2.1 := by
  induction tx with
  | nil => intro off start _ _; simp [lookupFrom]
  | cons t rest ih =>
    intro off start hstart hp
    unfold lookupFrom
    by_cases h : sec < t.when
    · simp [h]
    · simp only [h, if_false]
      have h1 : start ≤ t.when := hstart t (List.mem_cons_self _ _)
      have h2 := ih t.offset t.when (fun t' ht' => List.rel_of_pairwise_cons hp ht')
        (List.Pairwise.of_cons hp)
      omega

theorem lookupFrom_same_period (sec sec' : Int) (tx : List zoneTrans) :
    ∀ (off start : Int), tx.Pairwise (fun a b => a.when ≤ b.when) →
      (lookupFrom sec off start tx).2.1 ≤ sec' → sec' < (lookupFrom sec off start tx).2.2 →
      lookupFrom sec' off start tx = lookupFrom sec off start tx := by
  induction tx with
  | nil => intro off start _ _ _; simp [lookupFrom]
  | cons t rest ih =>
    intro off start hp
    unfold lookupFrom
    by_cases h : sec < t.when
    · simp only [h, if_true]
      intro _ h2
      simp [h2]
    · simp only [h, if_false]
      intro h1 h2
      have h3 := lookupFrom_start_le sec rest t.offset t.when
        (fun t' ht' => List.rel_of_pairwise_cons hp ht') (List.Pairwise.of_cons hp)
      have h4 : ¬ sec' < t.when := by omega
      simp only [h4, if_false]
      exact ih t.offset t.when (List.Pairwise.of_cons hp) h1 h2

theorem lookup_same_period (l : Location) (sec sec' : Int) (hl : l.ascending)
    (h1 : (l.lookup sec).2.1 ≤ sec') (h2 : sec' < (l.lookup sec).2.2) :
    l.lookup sec' = l.lookup sec :=
  lookupFrom_same_period sec sec' l.tx l.first alpha hl h1 h2

theorem int64_bounds (x : Int) :
    -9223372036854775808 ≤ int64 x ∧ int64 x < 9223372036854775808 := by
  unfold int64; omega

theorem zoneAdjust_abs (loc : Location) (A : Int) (hA0 : 0 ≤ A) (hA1 : A < 18446744073709551616)
    (hl : loc.ascending)
    (hz : (loc.lookup (int64 (A + (absoluteToInternal + internalToUnix)))).1 = 0 ∨
      ((loc.lookup (int64 (A + (absoluteToInternal + internalToUnix)))).2.1
          ≤ int64 (int64 (A + (absoluteToInternal + internalToUnix))
              - (loc.lookup (int64 (A + (absoluteToInternal + internalToUnix)))).1) ∧
        int64 (int64 (A + (absoluteToInternal + internalToUnix))
              - (loc.lookup (int64 (A + (absoluteToInternal + internalToUnix)))).1)
          < (loc.lookup (int64 (A + (absoluteToInternal + internalToUnix)))).2.2)) :
    (unixTime (zoneAdjust loc (int64 (A + (absoluteToInternal + internalToUnix)))) 0 loc).abs
      = A := by
  have hc1 : absoluteToInternal + internalToUnix = -9223372028715321600 := by decide
  have hc2 : unixToInternal + internalToAbsolute = 9223372028715321600 := by decide
  have hc3 : unixToInternal = 62135596800 := by decide
  have hc4 : internalToUnix = -62135596800 := by decide
  rw [hc1] at hz ⊢
  unfold Time.abs Time.unixSec unixTime
  simp only [hc2, hc3, hc4]
  generalize hu : int64 (A + -9223372028715321600) = u at *
  have hub := int64_bounds (A + -9223372028715321600)
  rw [hu] at hub
  have hround : ∀ v, int64 (int64 (int64 v + 62135596800) + -62135596800) = int64 v := by
    intro v; unfold int64; omega
  unfold zoneAdjust
  by_cases h0 : (loc.lookup u).1 = 0
  · simp only [h0, ne_eq, not_true_eq_false, if_false]
    have e1 : int64 (int64 (u + 62135596800) + -62135596800) = u := by
      rw [← hu]; exact hround _
    rw [e1, h0]
    rw [← hu]
    unfold int64 uint64
    omega
  · rcases hz with hz | ⟨hz1, hz2⟩
    · exact absurd hz h0
    · have h1 : ¬ (int64 (u - (loc.lookup u).1) < (loc.lookup u).2.1
          ∨ int64 (u - (loc.lookup u).1) ≥ (loc.lookup u).2.2) := by omega
      simp only [ne_eq, h0, not_false_eq_true, if_true, h1, if_false]
      rw [hround]
      rw [lookup_same_period loc u _ hl hz1 hz2]
      generalize (loc.lookup u).1 = o
      rw [← hu]
      unfold int64 uint64
      omega


theorem civilAbs_bounds (y m day : Int) (hr : yearInRange y) (hc : calendarDate y m day) :
    0 ≤ civilAbs y m day ∧ civilAbs y m day < 18446744073709551616 := by
  obtain ⟨hy0, hy1⟩ := hr
  obtain ⟨hm1, hm2, hd1, hd2⟩ := hc
  obtain ⟨_, _, hyd0, hyd1⟩ := yearDay_bounds (isLeap y) m day hm1 hm2 hd1 hd2
  obtain ⟨hc0, hc1⟩ := cycleDays_bounds (y + 292277022399) (by omega) (by omega)
  unfold civilAbs
  omega

theorem absDate_civil (y m day : Int) (hr : yearInRange y) (hc : calendarDate y m day) :
    absDate (civilAbs y m day) = (y, m, day, yearDay (isLeap y) m day) := by
  obtain ⟨hy0, hy1⟩ := hr
  obtain ⟨hm1, hm2, hd1, hd2⟩ := hc
  obtain ⟨_, _, hyd0, hyd1⟩ := yearDay_bounds (isLeap y) m day hm1 hm2 hd1 hd2
  have hyd2 : yearDay (isLeap y) m day < 365 ∨ (yearDay (isLeap y) m day = 365 ∧
      (y + 292277022399) % 4 = 3 ∧
      ((y + 292277022399) % 100 ≠ 99 ∨ (y + 292277022399) % 400 = 399)) := by
    rcases hyd1 with h | ⟨h, hl⟩
    · exact Or.inl h
    · have hleap := (isLeap_iff y).mp hl
      right
      omega
  have key := absDate_days (y + 292277022399) (yearDay (isLeap y) m day) 0
    (by omega) (by omega) hyd0 hyd2 (by omega) (by omega)
  have hy : y + 292277022399 - 292277022399 = y := by omega
  rw [hy, Int.add_zero] at key
  have hmd := monthDay_of_civil (isLeap y) m day hm1 hm2 hd1 hd2
  unfold civilAbs
  rw [key]
  unfold yearDay
  rw [hmd]

theorem lookup_UTC (u : Int) : UTC.lookup u = (0, alpha, omega) := rfl

theorem zoneAdjust_UTC (u : Int) : zoneAdjust UTC u = u := by
  unfold zoneAdjust
  simp [lookup_UTC]

theorem Date_UTC_unixSec (y m day : Int) (hr : yearInRange y) (hc : calendarDate y m day) :
    (Date y m day 0 0 0 0 UTC).unixSec
      = int64 (civilAbs y m day + (absoluteToInternal + internalToUnix)) := by
  rw [Date_midnight y m day UTC hr.1 hr.2 hc.1 hc.2.1 hc.2.2.1 hc.2.2.2, zoneAdjust_UTC]
  have hc3 : unixToInternal = 62135596800 := by decide
  have hc4 : internalToUnix = -62135596800 := by decide
  unfold Time.unixSec unixTime
  simp only [hc3, hc4]
  unfold int64
  omega

theorem Date_midnight_abs (y m day : Int) (z : Location) (hr : yearInRange y)
    (hc : calendarDate y m day) (hz : z.ascending)
    (hs : z.steadyAt (Date y m day 0 0 0 0 UTC).unixSec) :
    (Date y m day 0 0 0 0 z).abs = civilAbs y m day := by
  rw [Date_UTC_unixSec y m day hr hc] at hs
  obtain ⟨hA0, hA1⟩ := civilAbs_bounds y m day hr hc
  rw [Date_midnight y m day z hr.1 hr.2 hc.1 hc.2.1 hc.2.2.1 hc.2.2.2]
  exact zoneAdjust_abs z (civilAbs y m day) hA0 hA1 hz hs

theorem Date_midnight_fields (y m day : Int) (z : Location) (hr : yearInRange y)
    (hc : calendarDate y m day) (hz : z.ascending)
    (hs : z.steadyAt (Date y m day 0 0 0 0 UTC).unixSec) :
    (Date y m day 0 0 0 0 z).Year = y ∧ (Date y m day 0 0 0 0 z).Month = m ∧
      (Date y m day 0 0 0 0 z).Day = day ∧ (Date y m day 0 0 0 0 z).Hour = 0 ∧
      (Date y m day 0 0 0 0 z).Minute = 0 ∧ (Date y m day 0 0 0 0 z).Second = 0 ∧
      (Date y m day 0 0 0 0 z).Nanosecond = 0 ∧ (Date y m day 0 0 0 0 z).loc = z := by
  have habs := Date_midnight_abs y m day z hr hc hz hs
  have hcivil := absDate_civil y m day hr hc
  have hmid := Date_midnight y m day z hr.1 hr.2 hc.1 hc.2.1 hc.2.2.1 hc.2.2.2
  have hsd : secondsPerDay = 86400 := rfl
  have hsh : secondsPerHour = 3600 := rfl
  have hsm : secondsPerMinute = 60 := rfl
  have h1 : civilAbs y m day % 86400 = 0 := by unfold civilAbs; omega
  have h2 : civilAbs y m day % 3600 = 0 := by unfold civilAbs; omega
  have h3 : civilAbs y m day % 60 = 0 := by unfold civilAbs; omega
  refine ⟨?_, ?_, ?_, ?_, ?_, ?_, ?_, ?_⟩
  · unfold Time.Year; rw [habs, hcivil]
  · unfold Time.Month; rw [habs, hcivil]
  · unfold Time.Day; rw [habs, hcivil]
  · unfold Time.Hour; rw [habs, hsd, hsh, h1]; rfl
  · unfold Time.Minute; rw [habs, hsh, hsm, h2]; rfl
  · unfold Time.Second; rw [habs, hsm, h3]
  · rw [hmid]; rfl
  · rw [hmid]; rfl

theorem UTC_ascending : UTC.ascending := by decide

theorem UTC_steadyAt (u : Int) : UTC.steadyAt u := Or.inl rfl

theorem Date_UTC_fields (y m day : Int) (hr : yearInRange y) (hc : calendarDate y m day) :
    (Date y m day 0 0 0 0 UTC).Year = y ∧ (Date y m day 0 0 0 0 UTC).Month = m ∧
      (Date y m day 0 0 0 0 UTC).Day = day := by
  have h := Date_midnight_fields y m day UTC hr hc UTC_ascending (UTC_steadyAt _)
  exact ⟨h.1, h.2.1, h.2.2.1⟩

theorem zoneAdjust_abs_of_settles (loc : Location) (A : Int) (hA0 : 0 ≤ A)
    (hA1 : A < 18446744073709551616) (hl : loc.ascending)
    (hs : loc.settlesAt (int64 (A + (absoluteToInternal + internalToUnix)))) :
    (unixTime (zoneAdjust loc (int64 (A + (absoluteToInternal + internalToUnix)))) 0 loc).abs
      = A := by
  by_cases hin : loc.steadyAt (int64 (A + (absoluteToInternal + internalToUnix)))
  · exact zoneAdjust_abs loc A hA0 hA1 hl hin
  · have hc1 : absoluteToInternal + internalToUnix = -9223372028715321600 := by decide
    have hc2 : unixToInternal + internalToAbsolute = 9223372028715321600 := by decide
    have hc3 : unixToInternal = 62135596800 := by decide
    have hc4 : internalToUnix = -62135596800 := by decide
    rw [hc1] at hs hin ⊢
    unfold Time.abs Time.unixSec unixTime
    simp only [hc2, hc3, hc4]
    generalize hu : int64 (A + -9223372028715321600) = u at *
    have hround : ∀ v, int64 (int64 (int64 v + 62135596800) + -62135596800) = int64 v := by
      intro v; unfold int64; omega
    have h0 : (loc.lookup u).1 ≠ 0 := fun h => hin (Or.inl h)
    have h1 : int64 (u - (loc.lookup u).1) < (loc.lookup u).2.1
        ∨ int64 (u - (loc.lookup u).1) ≥ (loc.lookup u).2.2 := by
      by_contra hcon
      exact hin (Or.inr (by omega))
    unfold zoneAdjust
    simp only [ne_eq, h0, not_false_eq_true, if_true, h1]
    rw [hround, hs]
    generalize (loc.lookup (int64 (u - (loc.lookup u).1))).1 = o
    rw [← hu]
    unfold int64 uint64
    omega

theorem Date_settled_abs (y m day : Int) (z : Location) (hr : yearInRange y)
    (hc : calendarDate y m day) (hz : z.ascending)
    (hs : z.settlesAt (Date y m day 0 0 0 0 UTC).unixSec) :
    (Date y m day 0 0 0 0 z).abs = civilAbs y m day := by
  rw [Date_UTC_unixSec y m day hr hc] at hs
  obtain ⟨hA0, hA1⟩ := civilAbs_bounds y m day hr hc
  rw [Date_midnight y m day z hr.1 hr.2 hc.1 hc.2.1 hc.2.2.1 hc.2.2.2]
  exact zoneAdjust_abs_of_settles z (civilAbs y m day) hA0 hA1 hz hs

theorem Date_isMidnightOf_of_abs (y m day : Int) (z : Location) (hr : yearInRange y)
    (hc : calendarDate y m day) (habs : (Date y m day 0 0 0 0 z).abs = civilAbs y m day) :
    (Date y m day 0 0 0 0 z).isMidnightOf y m day z := by
  have hcivil := absDate_civil y m day hr hc
  have hmid := Date_midnight y m day z hr.1 hr.2 hc.1 hc.2.1 hc.2.2.1 hc.2.2.2
  have hsd : secondsPerDay = 86400 := rfl
  have hsh : secondsPerHour = 3600 := rfl
  have hsm : secondsPerMinute = 60 := rfl
  have h1 : civilAbs y m day % 86400 = 0 := by unfold civilAbs; omega
  have h2 : civilAbs y m day % 3600 = 0 := by unfold civilAbs; omega
  have h3 : civilAbs y m day % 60 = 0 := by unfold civilAbs; omega
  refine ⟨?_, ?_, ?_, ?_, ?_, ?_, ?_, ?_⟩
  · unfold Time.Year; rw [habs, hcivil]
  · unfold Time.Month; rw [habs, hcivil]
  · unfold Time.Day; rw [habs, hcivil]
  · unfold Time.Hour; rw [habs, hsd, hsh, h1]; rfl
  · unfold Time.Minute; rw [habs, hsh, hsm, h2]; rfl
  · unfold Time.Second; rw [habs, hsm, h3]
  · rw [hmid]; rfl
  · rw [hmid]; rfl

theorem day_decompose (D : Int) (h0 : 0 ≤ D) (h1 : D ≤ 213503982334601) :
    ∃ a b c e yd : Int, 0 ≤ a ∧ a ≤ 1461385128 ∧ 0 ≤ b ∧ b ≤ 3 ∧ 0 ≤ c ∧ c ≤ 24 ∧
      0 ≤ e ∧ e ≤ 3 ∧ 0 ≤ yd ∧ (yd < 365 ∨ (yd = 365 ∧ e = 3 ∧ (c ≠ 24 ∨ b = 3))) ∧
      D = 146097 * a + 36524 * b + 1461 * c + 365 * e + yd := by
  have hn2 : D % 146097 / 36524 = 0 ∨ D % 146097 / 36524 = 1 ∨ D % 146097 / 36524 = 2 ∨
      D % 146097 / 36524 = 3 ∨ D % 146097 / 36524 = 4 := by omega
  obtain ⟨b, r2, hb0, hb1, hr20, hr21, hr2⟩ : ∃ b r2 : Int, 0 ≤ b ∧ b ≤ 3 ∧
      0 ≤ r2 ∧ (r2 < 36524 ∨ (r2 = 36524 ∧ b = 3)) ∧ D % 146097 = 36524 * b + r2 := by
    rcases hn2 with h | h | h | h | h
    · exact ⟨0, D % 146097, by omega, by omega, by omega, by omega, by omega⟩
    · exact ⟨1, D % 146097 - 36524, by omega, by omega, by omega, by omega, by omega⟩
    · exact ⟨2, D % 146097 - 73048, by omega, by omega, by omega, by omega, by omega⟩
    · exact ⟨3, D % 146097 - 109572, by omega, by omega, by omega, by omega, by omega⟩
    · exact ⟨3, D % 146097 - 109572, by omega, by omega, by omega, by omega, by omega⟩
  have hn4 : r2 % 1461 / 365 = 0 ∨ r2 % 1461 / 365 = 1 ∨ r2 % 1461 / 365 = 2 ∨
      r2 % 1461 / 365 = 3 ∨ r2 % 1461 / 365 = 4 := by omega
  obtain ⟨e, yd, he0, he1, hyd0, hyd1, hr3⟩ : ∃ e yd : Int, 0 ≤ e ∧ e ≤ 3 ∧ 0 ≤ yd ∧
      (yd < 365 ∨ (yd = 365 ∧ e = 3 ∧ r2 % 1461 = 1460)) ∧ r2 % 1461 = 365 * e + yd := by
    rcases hn4 with h | h | h | h | h
    · exact ⟨0, r2 % 1461, by omega, by omega, by omega, by omega, by omega⟩
    · exact ⟨1, r2 % 1461 - 365, by omega, by omega, by omega, by omega, by omega⟩
    · exact ⟨2, r2 % 1461 - 730, by omega, by omega, by omega, by omega, by omega⟩
    · exact ⟨3, r2 % 1461 - 1095, by omega, by omega, by omega, by omega, by omega⟩
    · exact ⟨3, r2 % 1461 - 1095, by omega, by omega, by omega, by omega, by omega⟩
  refine ⟨D / 146097, b, r2 / 1461, e, yd, by omega, by omega, hb0, hb1, by omega, by omega,
    he0, he1, hyd0, ?_, by omega⟩
  rcases hyd1 with h | ⟨h1, h2, h3⟩
  · exact Or.inl h
  · right
    refine ⟨h1, h2, ?_⟩
    omega

theorem yearDay_monthDay (leap : Bool) (yd : Int) (h0 : 0 ≤ yd)
    (h1 : yd < 365 ∨ (yd = 365 ∧ leap = true)) :
    yearDay leap (monthDay leap yd).1 (monthDay leap yd).2 = yd := by
  have h2 : yd ≤ 365 := by omega
  cases leap
  · have h3 : yd < 365 := by
      rcases h1 with h | ⟨_, h⟩
      · exact h
      · exact Bool.noConfusion h
    interval_cases yd <;> rfl
  · interval_cases yd <;> rfl

theorem cycleDays_of_parts (a b c e : Int) (hb0 : 0 ≤ b) (hb1 : b ≤ 3)
    (hc0 : 0 ≤ c) (hc1 : c ≤ 24) (he0 : 0 ≤ e) (he1 : e ≤ 3) :
    cycleDays (400 * a + 100 * b + 4 * c + e)
      = 146097 * a + 36524 * b + 1461 * c + 365 * e := by
  unfold cycleDays
  have h1 : (400 * a + 100 * b + 4 * c + e) / 400 = a := by omega
  have h2 : (400 * a + 100 * b + 4 * c + e) % 400 / 100 = b := by omega
  have h3 : (400 * a + 100 * b + 4 * c + e) % 100 / 4 = c := by omega
  have h4 : (400 * a + 100 * b + 4 * c + e) % 4 = e := by omega
  rw [h1, h2, h3, h4]

theorem civilAbs_of_absDate (X y m day yd : Int) (hX0 : 0 ≤ X) (hX1 : X < 18446744073709551616)
    (h86 : X % 86400 = 0) (h : absDate X = (y, m, day, yd)) :
    X = civilAbs y m day := by
  obtain ⟨a, b, c, e, yd', ha0, ha1, hb0, hb1, hc0, hc1, he0, he1, hyd0, hyd1, hD⟩ :=
    day_decompose (X / 86400) (by omega) (by omega)
  have hX : X = (146097 * a + 36524 * b + 1461 * c + 365 * e + yd') * 86400 + 0 := by omega
  have key := absDate_cycle a b c e yd' 0 ha0 ha1 hb0 hb1 hc0 hc1 he0 he1 hyd0 hyd1
    (by omega) (by omega)
  rw [← hX, h] at key
  have hy : y = 400 * a + 100 * b + 4 * c + e - 292277022399 := congrArg (fun p => p.1) key
  have hm : m = (monthDay (isLeap (400 * a + 100 * b + 4 * c + e - 292277022399)) yd').1 :=
    congrArg (fun p => p.2.1) key
  have hd : day = (monthDay (isLeap (400 * a + 100 * b + 4 * c + e - 292277022399)) yd').2 :=
    congrArg (fun p => p.2.2.1) key
  rw [← hy] at hm hd
  have hleap : yd' < 365 ∨ (yd' = 365 ∧ isLeap y = true) := by
    rcases hyd1 with h1 | ⟨h1, h2, h3⟩
    · exact Or.inl h1
    · right
      refine ⟨h1, (isLeap_iff y).mpr ?_⟩
      omega
  have hyd := yearDay_monthDay (isLeap y) yd' hyd0 hleap
  rw [← hm, ← hd] at hyd
  have hcyc := cycleDays_of_parts a b c e hb0 hb1 hc0 hc1 he0 he1
  have hY : y + 292277022399 = 400 * a + 100 * b + 4 * c + e := by omega
  unfold civilAbs
  rw [hyd, hY, hcyc]
  omega

theorem uint64_bounds (x : Int) : 0 ≤ uint64 x ∧ uint64 x < 18446744073709551616 := by
  unfold uint64; omega

theorem lookupFrom_offset_int (sec : Int) (tx : List zoneTrans) :
    ∀ (off start : Int),
      (-9223372036854775808 ≤ off ∧ off < 9223372036854775808) →
      (∀ t ∈ tx, -9223372036854775808 ≤ t.offset ∧ t.offset < 9223372036854775808) →
      -9223372036854775808 ≤ (lookupFrom sec off start tx).1 ∧
        (lookupFrom sec off start tx).1 < 9223372036854775808 := by
  induction tx with
  | nil => intro off start h _; exact h
  | cons t rest ih =>
    intro off start h htx
    unfold lookupFrom
    by_cases hs : sec < t.when
    · simp only [hs, if_true]; exact h
    · simp only [hs, if_false]
      exact ih t.offset t.when (htx t (List.mem_cons_self _ _))
        (fun t' ht' => htx t' (List.mem_cons_of_mem _ ht'))

theorem lookup_offset_int (l : Location) (ho : l.offsetsInt) (sec : Int) :
    -9223372036854775808 ≤ (l.lookup sec).1 ∧ (l.lookup sec).1 < 9223372036854775808 :=
  lookupFrom_offset_int sec l.tx l.first alpha ho.1 ho.2

theorem settlesAt_of_steadyAt (l : Location) (u : Int) (hl : l.ascending)
    (hu : int64 u = u) (hs : l.steadyAt u) : l.settlesAt u := by
  rcases hs with h0 | ⟨h1, h2⟩
  · have e : int64 (u - (l.lookup u).1) = u := by rw [h0, Int.sub_zero, hu]
    show (l.lookup (int64 (u - (l.lookup (int64 (u - (l.lookup u).1))).1))).1
      = (l.lookup (int64 (u - (l.lookup u).1))).1
    rw [e, e]
  · have e := lookup_same_period l u _ hl h1 h2
    show (l.lookup (int64 (u - (l.lookup (int64 (u - (l.lookup u).1))).1))).1
      = (l.lookup (int64 (u - (l.lookup u).1))).1
    rw [e, e]

theorem settlesAt_of_zoneAdjust_abs (loc : Location) (A : Int) (hl : loc.ascending)
    (ho : loc.offsetsInt)
    (habs : (unixTime (zoneAdjust loc (int64 (A + (absoluteToInternal + internalToUnix))))
      0 loc).abs = A) :
    loc.settlesAt (int64 (A + (absoluteToInternal + internalToUnix))) := by
  by_cases hin : loc.steadyAt (int64 (A + (absoluteToInternal + internalToUnix)))
  · refine settlesAt_of_steadyAt loc _ hl ?_ hin
    unfold int64; omega
  · have hc1 : absoluteToInternal + internalToUnix = -9223372028715321600 := by decide
    have hc2 : unixToInternal + internalToAbsolute = 9223372028715321600 := by decide
    have hc3 : unixToInternal = 62135596800 := by decide
    have hc4 : internalToUnix = -62135596800 := by decide
    rw [hc1] at habs hin ⊢
    unfold Time.abs Time.unixSec unixTime at habs
    simp only [hc2, hc3, hc4] at habs
    generalize hu : int64 (A + -9223372028715321600) = u at *
    have hround : ∀ v, int64 (int64 (int64 v + 62135596800) + -62135596800) = int64 v := by
      intro v; unfold int64; omega
    have h0 : (loc.lookup u).1 ≠ 0 := fun h => hin (Or.inl h)
    have h1 : int64 (u - (loc.lookup u).1) < (loc.lookup u).2.1
        ∨ int64 (u - (loc.lookup u).1) ≥ (loc.lookup u).2.2 := by
      by_contra hcon
      exact hin (Or.inr (by omega))
    unfold zoneAdjust at habs
    simp only [ne_eq, h0, not_false_eq_true, if_true, h1] at habs
    rw [hround] at habs
    show (loc.lookup (int64 (u - (loc.lookup (int64 (u - (loc.lookup u).1))).1))).1
      = (loc.lookup (int64 (u - (loc.lookup u).1))).1
    have hb2 := lookup_offset_int loc ho (int64 (u - (loc.lookup u).1))
    have hbf := lookup_offset_int loc ho
      (int64 (u - (loc.lookup (int64 (u - (loc.lookup u).1))).1))
    generalize (loc.lookup (int64 (u - (loc.lookup u).1))).1 = o2 at *
    generalize hU : int64 (u - o2) = U at *
    generalize (loc.lookup U).1 = f at *
    rw [← hU, ← hu] at habs
    unfold int64 uint64 at habs
    omega

theorem settlesAt_of_isMidnightOf (y m day : Int) (z : Location) (hr : yearInRange y)
    (hc : calendarDate y m day) (hz : z.ascending) (ho : z.offsetsInt)
    (hP : (Date y m day 0 0 0 0 z).isMidnightOf y m day z) :
    z.settlesAt (Date y m day 0 0 0 0 UTC).unixSec := by
  obtain ⟨hY, hM, hD, hH, hMi, hS, _, _⟩ := hP
  obtain ⟨hX0, hX1⟩ : 0 ≤ (Date y m day 0 0 0 0 z).abs ∧
      (Date y m day 0 0 0 0 z).abs < 18446744073709551616 := uint64_bounds _
  have hsd : secondsPerDay = 86400 := rfl
  have hsh : secondsPerHour = 3600 := rfl
  have hsm : secondsPerMinute = 60 := rfl
  unfold Time.Hour at hH
  unfold Time.Minute at hMi
  unfold Time.Second at hS
  rw [hsd, hsh, Int.tdiv_eq_ediv (by omega) (by omega)] at hH
  rw [hsh, hsm, Int.tdiv_eq_ediv (by omega) (by omega)] at hMi
  rw [hsm] at hS
  have h86 : (Date y m day 0 0 0 0 z).abs % 86400 = 0 := by omega
  have habsDate : absDate (Date y m day 0 0 0 0 z).abs
      = (y, m, day, (absDate (Date y m day 0 0 0 0 z).abs).2.2.2) := by
    exact Prod.ext hY (Prod.ext hM (Prod.ext hD rfl))
  have habs := civilAbs_of_absDate _ y m day _ hX0 hX1 h86 habsDate
  rw [Date_UTC_unixSec y m day hr hc]
  rw [Date_midnight y m day z hr.1 hr.2 hc.1 hc.2.1 hc.2.2.1 hc.2.2.2] at habs
  exact settlesAt_of_zoneAdjust_abs z (civilAbs y m day) hz ho habs

end time

/-! ## The claims -/

namespace datetype

/-- C1 (counterexample). The round trip is not the identity on every date a
constructor returns: `NewDate(2042, 13, 1)` and `NewDate(2042, February, 30)` come back
as 1 January 2043 and 2 March 2042, because `time.Date` normalises the tuple, and the
year 2^62 of `NewDate(4611686018427387904, January, 1)`, which no 64-bit count of
seconds reaches, does not come back either. -/
theorem roundTrip_not_identity :
    (roundTrip (NewDate 2042 13 1)).1 = NewDate 2043 time.January 1 ∧
      (roundTrip (NewDate 2042 13 1)).1 ≠ NewDate 2042 13 1 ∧
      (roundTrip (NewDate 2042 time.February 30)).1 = NewDate 2042 time.March 2 ∧
      (roundTrip (NewDate 2042 time.February 30)).1 ≠ NewDate 2042 time.February 30 ∧
      (roundTrip (NewDate 4611686018427387904 time.January 1)).1
        ≠ NewDate 4611686018427387904 time.January 1 := by
  decide

/-- C1 (amended). Round-trip law: for the null date, the two infinities, and
`NewDate(y, m, day)` whenever `(y, m, day)` is a day of the calendar with a year from
-292277022399 to 292277026595, `Value` returns no error and `Scan` of the returned
driver value into a zero-valued receiver returns no error and leaves the receiver equal
to the date in all five fields. -/
theorem roundTrip_constructors :
    (NewNullDate.Value.2 = none ∧ roundTrip NewNullDate = (NewNullDate, none)) ∧
      (NewInfinityDate.Value.2 = none ∧ roundTrip NewInfinityDate = (NewInfinityDate, none)) ∧
      (NewNegativeInfinityDate.Value.2 = none ∧
        roundTrip NewNegativeInfinityDate = (NewNegativeInfinityDate, none)) ∧
      ∀ (y : Int) (m : time.Month) (day : Int),
        time.yearInRange y → time.calendarDate y m day →
          (NewDate y m day).Value.2 = none ∧
            roundTrip (NewDate y m day) = (NewDate y m day, none) := by
  refine ⟨by decide, by decide, by decide, ?_⟩
  intro y m day hr hc
  obtain ⟨h1, h2, h3⟩ := time.Date_UTC_fields y m day hr hc
  refine ⟨rfl, ?_⟩
  simp only [roundTrip, zeroDate, NewDate, Date.Value, Date.Time, Date.Scan, DriverValue.toSrc,
    Infinity, NegativeInfinity, None]
  simp [h1, h2, h3]

/-- C1 (witness): the round trip of 23 April 2042. -/
theorem roundTrip_constructors_witness :
    time.yearInRange 2042 ∧ time.calendarDate 2042 time.April 23 ∧
      (NewDate 2042 time.April 23).Value.2 = none ∧
      roundTrip (NewDate 2042 time.April 23) = (NewDate 2042 time.April 23, none) :=
  ⟨by decide, by decide,
    roundTrip_constructors.2.2.2 2042 time.April 23 (by decide) (by decide)⟩

/-- C2 (code at the failing input). `Scan(nil)` on a receiver that holds 23 April 2042
returns no error and resets year, month and day, but leaves `Valid` true: the
receiver is the finite date 1 January of year 1, not `NewNullDate()`. -/
theorem scan_nil_keeps_valid :
    (NewDate 2042 time.April 23).Scan .nil = (NewDate 1 time.January 1, none) ∧
      ((NewDate 2042 time.April 23).Scan .nil).1 ≠ NewNullDate ∧
      ((NewDate 2042 time.April 23).Scan .nil).1.Valid = true := by
  decide

/-- C3 (code at the failing input). A rejected text scanned into a receiver that holds
positive infinity, and a rejected `int64` scanned into a receiver that holds 23 April
2042, return an error and leave the receiver with `Valid` true, positive infinity in
the first case and 1 January of year 1 in the second: not the null state. -/
theorem scan_error_keeps_status :
    NewInfinityDate.Scan (.string "sike")
        = (NewInfinityDate, some "unexpected string value sike") ∧
      (NewInfinityDate.Scan (.string "sike")).1 ≠ NewNullDate ∧
      (NewDate 2042 time.April 23).Scan (.int64 42)
        = (NewDate 1 time.January 1, some "value 42 has unexpected type int64") ∧
      ((NewDate 2042 time.April 23).Scan (.int64 42)).1 ≠ NewNullDate := by
  decide

/-- C4 (code at the failing input). The timestamp 2042-04-23T01:02:03.000000004Z
scanned into a receiver that holds positive infinity returns no error and stores
year, month and day, but leaves `InfinityModifier` at `Infinity`: the receiver is not
`NewDate(2042, April, 23)` and `Value` encodes it as the text "infinity". -/
theorem scan_time_keeps_infinity :
    NewInfinityDate.Scan (.time (time.Date 2042 time.April 23 1 2 3 4 time.UTC))
        = ({ Year := 2042, Month := time.April, Day := 23, Valid := true,
             InfinityModifier := Infinity }, none) ∧
      (NewInfinityDate.Scan (.time (time.Date 2042 time.April 23 1 2 3 4 time.UTC))).1
        ≠ NewDate 2042 time.April 23 ∧
      (NewInfinityDate.Scan
          (.time (time.Date 2042 time.April 23 1 2 3 4 time.UTC))).1.Value.1
        = .string "infinity" := by
  decide

/-- C5. `Scan` returns an error if and only if its input is a text other than
"infinity" and "-infinity", or a value that is neither absent, a timestamp nor text;
"Infinity", " infinity", "infinity ", "+infinity" and the empty text are rejected. -/
theorem scan_error_iff (d : Date) (src : Src) :
    ((d.Scan src).2 ≠ none ↔
      ((∃ s, src = .string s ∧ s ≠ "infinity" ∧ s ≠ "-infinity") ∨
        (∃ n, src = .int64 n) ∨ (∃ g t, src = .other g t))) ∧
      (d.Scan .nil).2 = none ∧ (∀ t, (d.Scan (.time t)).2 = none) ∧
      (d.Scan (.string "infinity")).2 = none ∧ (d.Scan (.string "-infinity")).2 = none ∧
      (d.Scan (.string "Infinity")).2 ≠ none ∧ (d.Scan (.string " infinity")).2 ≠ none ∧
      (d.Scan (.string "infinity ")).2 ≠ none ∧ (d.Scan (.string "+infinity")).2 ≠ none ∧
      (d.Scan (.string "")).2 ≠ none := by
  refine ⟨?_, rfl, fun _ => rfl, rfl, rfl, ?_, ?_, ?_, ?_, ?_⟩
  · cases src with
    | nil => simp [Date.Scan]
    | time t => simp [Date.Scan]
    | string s =>
      by_cases h1 : s = "infinity"
      · simp [Date.Scan, infinityStr, h1]
      · by_cases h2 : s = "-infinity"
        · simp [Date.Scan, infinityStr, negativeInfinityStr, h2]
        · simp [Date.Scan, infinityStr, negativeInfinityStr, h1, h2]
    | int64 n => simp [Date.Scan]
    | other g t => simp [Date.Scan]
  all_goals simp [Date.Scan, infinityStr, negativeInfinityStr]

/-- C6. For every prior state of the receiver, `Scan("infinity")` returns no error and
leaves the receiver equal to `NewInfinityDate()`, and `Scan("-infinity")` returns no
error and leaves it equal to `NewNegativeInfinityDate()`. -/
theorem scan_sentinels (d : Date) :
    d.Scan (.string "infinity") = (NewInfinityDate, none) ∧
      d.Scan (.string "-infinity") = (NewNegativeInfinityDate, none) := by
  constructor <;> rfl

/-- C7. `Scan` into a zero-valued receiver returns no error and gives `NewNullDate()`
for an absent input, `NewDate(t.Year(), t.Month(), t.Day())` for every timestamp `t`,
and the two infinities for the two sentinel texts; the timestamp
2042-04-23T01:02:03.000000004Z gives `NewDate(2042, April, 23)`. -/
theorem scan_zero_receiver :
    zeroDate.Scan .nil = (NewNullDate, none) ∧
      (∀ t : time.Time, zeroDate.Scan (.time t) = (NewDate t.Year t.Month t.Day, none)) ∧
      zeroDate.Scan (.string "infinity") = (NewInfinityDate, none) ∧
      zeroDate.Scan (.string "-infinity") = (NewNegativeInfinityDate, none) ∧
      zeroDate.Scan (.time (time.Date 2042 time.April 23 1 2 3 4 time.UTC))
        = (NewDate 2042 time.April 23, none) := by
  refine ⟨rfl, fun _ => rfl, rfl, rfl, by decide⟩

/-- C8. `Value` on the four states: nil for a date with `Valid` false, the text
"infinity" for a valid date with `InfinityModifier = Infinity`, the text "-infinity"
for a valid date with `InfinityModifier = NegativeInfinity`, and for a finite date the
timestamp `time.Date(Year, Month, Day, 0, 0, 0, 0, UTC)`, which is `d.Time(time.UTC)`;
on the four dates of the test table it returns nil, "infinity", "-infinity" and
2042-04-23T00:00:00Z, the Unix second 2281824000. -/
theorem value_table (y : Int) (m : time.Month) (day : Int) (im : InfinityModifier) :
    Date.Value { Year := y, Month := m, Day := day, Valid := false, InfinityModifier := im }
        = (.nil, none) ∧
      Date.Value { Year := y, Month := m, Day := day, Valid := true,
                   InfinityModifier := Infinity } = (.string "infinity", none) ∧
      Date.Value { Year := y, Month := m, Day := day, Valid := true,
                   InfinityModifier := NegativeInfinity } = (.string "-infinity", none) ∧
      Date.Value { Year := y, Month := m, Day := day, Valid := true, InfinityModifier := None }
        = (.time (time.Date y m day 0 0 0 0 time.UTC), none) ∧
      Date.Value { Year := y, Month := m, Day := day, Valid := true, InfinityModifier := None }
        = (.time (Date.Time { Year := y, Month := m, Day := day, Valid := true,
                              InfinityModifier := None } time.UTC), none) ∧
      NewNullDate.Value = (.nil, none) ∧
      NewInfinityDate.Value = (.string "infinity", none) ∧
      NewNegativeInfinityDate.Value = (.string "-infinity", none) ∧
      (NewDate 2042 time.April 23).Value
        = (.time (time.Date 2042 time.April 23 0 0 0 0 time.UTC), none) ∧
      (time.Date 2042 time.April 23 0 0 0 0 time.UTC).unixSec = 2281824000 ∧
      (time.Date 2042 time.April 23 0 0 0 0 time.UTC).nsec = 0 := by
  refine ⟨rfl, rfl, rfl, rfl, rfl, rfl, rfl, rfl, rfl, by decide, by decide⟩

/-- C9. `Value` never fails: for every `Date`, whatever its five fields hold, the
error it returns is nil. -/
theorem value_error_nil (d : Date) : d.Value.2 = none := by
  unfold Date.Value
  split_ifs <;> rfl

/-- C10 (counterexample). The instant `d.Time(z)` does not keep the fields of every
finite date in every zone: `NewDate(2042, 13, 1)` in UTC is in the year 2043; the year
2^62 in UTC is not kept; and in America/Sao_Paulo, where 4 November 2018 began at
01:00, midnight of `NewDate(2018, November, 4)` is not a reading of the clock. -/
theorem time_not_midnight_of_date :
    ((NewDate 2042 13 1).Time time.UTC).Year = 2043 ∧
      ((NewDate 2042 13 1).Time time.UTC).Month = time.January ∧
      ((NewDate 4611686018427387904 time.January 1).Time time.UTC).Year
        ≠ 4611686018427387904 ∧
      ¬ (((NewDate 2018 time.November 4).Time time.saoPaulo).Year = 2018 ∧
          ((NewDate 2018 time.November 4).Time time.saoPaulo).Month = time.November ∧
          ((NewDate 2018 time.November 4).Time time.saoPaulo).Day = 4 ∧
          ((NewDate 2018 time.November 4).Time time.saoPaulo).Hour = 0) := by
  decide

/-- C10 (amended). For every finite date `NewDate(y, m, day)` whose tuple is a day of
the calendar with a year from -292277022399 to 292277026595, and every zone `z`
(transitions in ascending order): with `u` that midnight taken as a UTC instant, `o1`
the offset of `z` at `u` and `o2` the offset of `z` at `u - o1`, if the offset of `z`
at `u - o2` is `o2`, so that the clock of `z` shows that midnight at the instant the
offset search of `time.Date` arrives at, then `d.Time(z)` has year, month and day equal
to `y`, `m` and `day`, time of day 00:00:00.000000000, and location `z`; and in a zone
whose offsets are `int` values, `d.Time(z)` has those fields only if that condition
holds. -/
theorem time_midnight_of_calendar_date (y : Int) (m : time.Month) (day : Int)
    (z : time.Location) (hr : time.yearInRange y) (hc : time.calendarDate y m day)
    (hz : z.ascending) :
    (z.settlesAt (time.Date y m day 0 0 0 0 time.UTC).unixSec →
        ((NewDate y m day).Time z).isMidnightOf y m day z) ∧
      (z.offsetsInt → ((NewDate y m day).Time z).isMidnightOf y m day z →
        z.settlesAt (time.Date y m day 0 0 0 0 time.UTC).unixSec) := by
  have h : (NewDate y m day).Time z = time.Date y m day 0 0 0 0 z := by
    simp [NewDate, Date.Time, None]
  rw [h]
  constructor
  · intro hs
    exact time.Date_isMidnightOf_of_abs y m day z hr hc
      (time.Date_settled_abs y m day z hr hc hz hs)
  · intro ho hP
    exact time.settlesAt_of_isMidnightOf y m day z hr hc hz ho hP

/-- C10 (witness): 23 April 2042 in Europe/Moscow; the days of an offset change, 27
March 2011 and 26 October 2014 in Europe/Moscow and 17 February 2019 in
America/Sao_Paulo, on which midnight is a reading of the clock; and 4 November 2018 in
America/Sao_Paulo, on which it is not. -/
theorem time_midnight_of_calendar_date_witness :
    (time.yearInRange 2042 ∧ time.calendarDate 2042 time.April 23 ∧
        time.moscow.ascending ∧
        time.moscow.settlesAt (time.Date 2042 time.April 23 0 0 0 0 time.UTC).unixSec ∧
        ((NewDate 2042 time.April 23).Time time.moscow).isMidnightOf 2042 time.April 23
          time.moscow) ∧
      ((NewDate 2011 time.March 27).Time time.moscow).isMidnightOf 2011 time.March 27
        time.moscow ∧
      ((NewDate 2014 10 26).Time time.moscow).isMidnightOf 2014 10 26 time.moscow ∧
      ((NewDate 2019 time.February 17).Time time.saoPaulo).isMidnightOf 2019 time.February 17
        time.saoPaulo ∧
      (time.saoPaulo.offsetsInt ∧
        ¬ time.saoPaulo.settlesAt (time.Date 2018 time.November 4 0 0 0 0 time.UTC).unixSec ∧
        ¬ ((NewDate 2018 time.November 4).Time time.saoPaulo).isMidnightOf 2018
            time.November 4 time.saoPaulo) :=
  ⟨⟨by decide, by decide, by decide, by decide,
      (time_midnight_of_calendar_date 2042 time.April 23 time.moscow (by decide) (by decide)
        (by decide)).1 (by decide)⟩,
    (time_midnight_of_calendar_date 2011 time.March 27 time.moscow (by decide) (by decide)
      (by decide)).1 (by decide),
    (time_midnight_of_calendar_date 2014 10 26 time.moscow (by decide) (by decide)
      (by decide)).1 (by decide),
    (time_midnight_of_calendar_date 2019 time.February 17 time.saoPaulo (by decide) (by decide)
      (by decide)).1 (by decide),
    ⟨by decide, by decide, fun hP =>
      absurd ((time_midnight_of_calendar_date 2018 time.November 4 time.saoPaulo (by decide)
        (by decide) (by decide)).2 (by decide) hP) (by decide)⟩⟩

end datetype

namespace datetype

theorem scan_infinityStr (d : Date) :
    d.Scan (.string infinityStr) = (NewInfinityDate, none) := rfl

theorem scan_negativeInfinityStr (d : Date) :
    d.Scan (.string negativeInfinityStr) = (NewNegativeInfinityDate, none) := rfl

theorem scan_rejected_string (d : Date) (s : String) (h1 : s ≠ infinityStr)
    (h2 : s ≠ negativeInfinityStr) :
    d.Scan (.string s)
      = ({ d with Year := 1, Month := time.January, Day := 1 },
          some ("unexpected string value " ++ s)) := by
  simp only [Date.Scan, h1, h2, if_false]

/-- C11. For every date with `Valid` false or `InfinityModifier` different from `None`,
whatever its year, month and day hold, and every zone `z`, `d.Time(z)` is
`time.Date(1, January, 1, 0, 0, 0, 0, z)`; replacing the year, month and day of such a
date does not change the result. -/
theorem time_of_non_finite (d : Date) (z : time.Location)
    (h : d.Valid = false ∨ d.InfinityModifier ≠ None) :
    d.Time z = time.Date 1 time.January 1 0 0 0 0 z ∧
      ∀ (y : Int) (m : time.Month) (day : Int),
        Date.Time { d with Year := y, Month := m, Day := day } z = d.Time z := by
  constructor
  · unfold Date.Time
    rw [if_pos h]
  · intro y m day
    unfold Date.Time
    rw [if_pos h, if_pos h]

/-- C11 (witness): the positive infinity of the test table, with year 2042, in UTC
gives the instant 0001-01-01T00:00:00Z, the zero `time.Time`. -/
theorem time_of_non_finite_witness :
    (({ Year := 2042, InfinityModifier := Infinity } : Date).Valid = false ∨
        ({ Year := 2042, InfinityModifier := Infinity } : Date).InfinityModifier ≠ None) ∧
      Date.Time { Year := 2042, InfinityModifier := Infinity } time.UTC
        = time.Date 1 time.January 1 0 0 0 0 time.UTC ∧
      time.Date 1 time.January 1 0 0 0 0 time.UTC = { sec := 0, nsec := 0, loc := time.UTC } :=
  ⟨by decide,
    (time_of_non_finite { Year := 2042, InfinityModifier := Infinity } time.UTC
      (by decide)).1,
    by decide⟩

/-- C12 (counterexample). The tuple (2^62, January, 1) is a day of the calendar, but
the timestamp `Value` returns for `NewDate(4611686018427387904, January, 1)` is not in
the year 2^62, and `Scan` of it does not give the date back. -/
theorem restricted_roundTrip_fails_far_year :
    time.calendarDate 4611686018427387904 time.January 1 ∧
      (NewDate 4611686018427387904 time.January 1).Value
        = (.time (time.Date 4611686018427387904 time.January 1 0 0 0 0 time.UTC), none) ∧
      (time.Date 4611686018427387904 time.January 1 0 0 0 0 time.UTC).Year
        ≠ 4611686018427387904 ∧
      zeroDate.Scan (.time (time.Date 4611686018427387904 time.January 1 0 0 0 0 time.UTC))
        ≠ (NewDate 4611686018427387904 time.January 1, none) := by
  decide

/-- C12 (amended). Restricted round trip: for every `NewDate(y, m, day)` whose tuple is
a day of the calendar with a year from -292277022399 to 292277026595, `Value` returns,
without error, the timestamp `time.Date(y, m, day, 0, 0, 0, 0, UTC)`, located in UTC,
whose `Year()`, `Month()` and `Day()` are `y`, `m` and `day`, and `Scan` of that value
into a zero-valued receiver returns no error and gives back `NewDate(y, m, day)`. -/
theorem restricted_roundTrip (y : Int) (m : time.Month) (day : Int)
    (hr : time.yearInRange y) (hc : time.calendarDate y m day) :
    (NewDate y m day).Value = (.time (time.Date y m day 0 0 0 0 time.UTC), none) ∧
      (time.Date y m day 0 0 0 0 time.UTC).loc = time.UTC ∧
      (time.Date y m day 0 0 0 0 time.UTC).Year = y ∧
      (time.Date y m day 0 0 0 0 time.UTC).Month = m ∧
      (time.Date y m day 0 0 0 0 time.UTC).Day = day ∧
      zeroDate.Scan (.time (time.Date y m day 0 0 0 0 time.UTC))
        = (NewDate y m day, none) := by
  have h := time.Date_midnight_fields y m day time.UTC hr hc time.UTC_ascending
    (time.UTC_steadyAt _)
  obtain ⟨h1, h2, h3, _, _, _, _, h8⟩ := h
  refine ⟨rfl, h8, h1, h2, h3, ?_⟩
  simp only [zeroDate, NewDate, Date.Scan]
  rw [h1, h2, h3]

/-- C12 (witness): 29 February 2024. -/
theorem restricted_roundTrip_witness :
    time.yearInRange 2024 ∧ time.calendarDate 2024 time.February 29 ∧
      (time.Date 2024 time.February 29 0 0 0 0 time.UTC).Year = 2024 ∧
      (time.Date 2024 time.February 29 0 0 0 0 time.UTC).Month = time.February ∧
      (time.Date 2024 time.February 29 0 0 0 0 time.UTC).Day = 29 ∧
      zeroDate.Scan (.time (time.Date 2024 time.February 29 0 0 0 0 time.UTC))
        = (NewDate 2024 time.February 29, none) :=
  ⟨by decide, by decide,
    (restricted_roundTrip 2024 time.February 29 (by decide) (by decide)).2.2⟩

/-- C13. `Scan` is idempotent on success: for every prior state of the receiver and
every input on which `Scan` returns no error, a second `Scan` of the same input on the
resulting receiver returns no error and leaves the receiver unchanged. -/
theorem scan_idempotent (d : Date) (src : Src) (h : (d.Scan src).2 = none) :
    (d.Scan src).1.Scan src = ((d.Scan src).1, none) := by
  cases src with
  | nil => rfl
  | time t => rfl
  | string s =>
    by_cases h1 : s = infinityStr
    · subst h1; rfl
    · by_cases h2 : s = negativeInfinityStr
      · subst h2; rfl
      · rw [scan_rejected_string d s h1 h2] at h
        cases h
  | int64 n => cases h
  | other g t => cases h

/-- C13 (witness): the timestamp 2042-04-23T01:02:03.000000004Z scanned twice into a
receiver that held negative infinity. -/
theorem scan_idempotent_witness :
    (NewNegativeInfinityDate.Scan
        (.time (time.Date 2042 time.April 23 1 2 3 4 time.UTC))).2 = none ∧
      (NewNegativeInfinityDate.Scan
          (.time (time.Date 2042 time.April 23 1 2 3 4 time.UTC))).1.Scan
          (.time (time.Date 2042 time.April 23 1 2 3 4 time.UTC))
        = ((NewNegativeInfinityDate.Scan
            (.time (time.Date 2042 time.April 23 1 2 3 4 time.UTC))).1, none) :=
  ⟨rfl, scan_idempotent NewNegativeInfinityDate
    (.time (time.Date 2042 time.April 23 1 2 3 4 time.UTC)) rfl⟩

/-- C14. For every text `s` other than "infinity" and "-infinity" and every receiver,
the error `Scan` returns has the message "unexpected string value " followed by `s`
itself. -/
theorem scan_string_message (d : Date) (s : String) (h1 : s ≠ "infinity")
    (h2 : s ≠ "-infinity") :
    (d.Scan (.string s)).2 = some ("unexpected string value " ++ s) := by
  simp [Date.Scan, infinityStr, negativeInfinityStr, h1, h2]

/-- C14 (witness): the text "sike" of the test table. -/
theorem scan_string_message_witness :
    "sike" ≠ "infinity" ∧ "sike" ≠ "-infinity" ∧
      (zeroDate.Scan (.string "sike")).2 = some "unexpected string value sike" :=
  ⟨by decide, by decide, scan_string_message zeroDate "sike" (by decide) (by decide)⟩

/-- C15. For every integer `n` given to `Scan` as an `int64`, and every receiver, `Scan`
returns an error whose message is "value ", the decimal rendering of `n` (a minus sign
for a negative `n`, then the digits of its absolute value) and " has unexpected type
int64"; 42 gives the message of the test table, and the least and greatest `int64` are
rendered in full. -/
theorem scan_int64_message (d : Date) (n : Int) :
    (d.Scan (.int64 n)).2
        = some ("value " ++ (if n < 0 then "-" ++ Nat.repr n.natAbs else Nat.repr n.natAbs)
            ++ " has unexpected type int64") ∧
      (d.Scan (.int64 42)).2 = some "value 42 has unexpected type int64" ∧
      (d.Scan (.int64 (-42))).2 = some "value -42 has unexpected type int64" ∧
      (d.Scan (.int64 0)).2 = some "value 0 has unexpected type int64" ∧
      (d.Scan (.int64 (-9223372036854775808))).2
        = some "value -9223372036854775808 has unexpected type int64" ∧
      (d.Scan (.int64 9223372036854775807)).2
        = some "value 9223372036854775807 has unexpected type int64" := by
  refine ⟨?_, rfl, rfl, rfl, rfl, rfl⟩
  have hrepr : toString n = (if n < 0 then "-" ++ Nat.repr n.natAbs else Nat.repr n.natAbs) := by
    cases n with
    | ofNat k =>
      have hk : ¬ Int.ofNat k < 0 := not_lt.mpr (Int.ofNat_nonneg k)
      simp only [hk, if_false]
      rfl
    | negSucc k =>
      have hk : Int.negSucc k < 0 := Int.negSucc_lt_zero k
      simp only [hk, if_true]
      rfl
  simp only [Date.Scan, hrepr]
  simp [String.append_assoc]

/-- C16. For every `Date`, whatever its five fields hold, `Value` returns nil if and
only if `Valid` is false; a date with `Valid` false and `InfinityModifier = Infinity`
is encoded as nil. -/
theorem value_nil_iff (d : Date) :
    (d.Value.1 = .nil ↔ d.Valid = false) ∧
      Date.Value { Year := 2042, Valid := false, InfinityModifier := Infinity }
        = (.nil, none) := by
  refine ⟨?_, rfl⟩
  unfold Date.Value
  split_ifs with h1 h2 h3 <;> simp [h1]

/-- C17 (counterexample). `InfinityModifier = None` does not mark the infinities:
`NewInfinityDate()` is an infinity, encoded as "infinity", with `InfinityModifier`
different from `None`, and `NewNullDate()` has `InfinityModifier = None` and is not an
infinity. After a timestamp is scanned into a receiver that held positive infinity,
`InfinityModifier` is not `None` and the date equals neither infinity. -/
theorem infinityModifier_none_not_iff_infinity :
    ¬ (NewInfinityDate.InfinityModifier = None ↔ isInfinity NewInfinityDate) ∧
      ¬ (NewNullDate.InfinityModifier = None ↔ isInfinity NewNullDate) ∧
      NewInfinityDate.Value.1 = .string "infinity" ∧
      NewNullDate.Value.1 = .nil ∧
      (NewInfinityDate.Scan (.time (time.Date 2042 time.April 23 1 2 3 4 time.UTC))).2
        = none ∧
      (NewInfinityDate.Scan
          (.time (time.Date 2042 time.April 23 1 2 3 4 time.UTC))).1.InfinityModifier
        ≠ None ∧
      ¬ isInfinity (NewInfinityDate.Scan
          (.time (time.Date 2042 time.April 23 1 2 3 4 time.UTC))).1 := by
  decide

/-- C17 (amended). `InfinityModifier` is different from `None` if and only if the date
is positive or negative infinity: for every date returned by a constructor, and every
date left by a `Scan` without error into a zero-valued receiver,
`InfinityModifier ≠ None` holds exactly when the date equals `NewInfinityDate()` or
`NewNegativeInfinityDate()`, and exactly when `Value` returns "infinity" or
"-infinity". -/
theorem infinityModifier_ne_none_iff_infinity :
    ((NewNullDate.InfinityModifier ≠ None ↔ isInfinity NewNullDate) ∧
        (NewNullDate.InfinityModifier ≠ None ↔ encodesInfinity NewNullDate)) ∧
      ((NewInfinityDate.InfinityModifier ≠ None ↔ isInfinity NewInfinityDate) ∧
        (NewInfinityDate.InfinityModifier ≠ None ↔ encodesInfinity NewInfinityDate)) ∧
      ((NewNegativeInfinityDate.InfinityModifier ≠ None ↔ isInfinity NewNegativeInfinityDate) ∧
        (NewNegativeInfinityDate.InfinityModifier ≠ None
          ↔ encodesInfinity NewNegativeInfinityDate)) ∧
      (∀ (y : Int) (m : time.Month) (day : Int),
        ((NewDate y m day).InfinityModifier ≠ None ↔ isInfinity (NewDate y m day)) ∧
          ((NewDate y m day).InfinityModifier ≠ None ↔ encodesInfinity (NewDate y m day))) ∧
      ∀ src : Src, (zeroDate.Scan src).2 = none →
        ((zeroDate.Scan src).1.InfinityModifier ≠ None ↔ isInfinity (zeroDate.Scan src).1) ∧
          ((zeroDate.Scan src).1.InfinityModifier ≠ None
            ↔ encodesInfinity (zeroDate.Scan src).1) := by
  have hnew : ∀ (y : Int) (m : time.Month) (day : Int),
      ((NewDate y m day).InfinityModifier ≠ None ↔ isInfinity (NewDate y m day)) ∧
        ((NewDate y m day).InfinityModifier ≠ None ↔ encodesInfinity (NewDate y m day)) := by
    intro y m day
    simp [NewDate, None, Infinity, NegativeInfinity, isInfinity, encodesInfinity,
      NewInfinityDate, NewNegativeInfinityDate, Date.Value]
  refine ⟨by decide, by decide, by decide, hnew, ?_⟩
  intro src h
  cases src with
  | nil => decide
  | time t => exact hnew t.Year t.Month t.Day
  | string s =>
    by_cases h1 : s = infinityStr
    · subst h1; decide
    · by_cases h2 : s = negativeInfinityStr
      · subst h2; decide
      · rw [scan_rejected_string zeroDate s h1 h2] at h
        cases h
  | int64 n => cases h
  | other g t => cases h

/-- C17 (witness): the text "infinity" scanned into a zero-valued receiver. -/
theorem infinityModifier_ne_none_iff_infinity_witness :
    (zeroDate.Scan (.string "infinity")).2 = none ∧
      ((zeroDate.Scan (.string "infinity")).1.InfinityModifier ≠ None
        ↔ isInfinity (zeroDate.Scan (.string "infinity")).1) ∧
      ((zeroDate.Scan (.string "infinity")).1.InfinityModifier ≠ None
        ↔ encodesInfinity (zeroDate.Scan (.string "infinity")).1) :=
  ⟨rfl, infinityModifier_ne_none_iff_infinity.2.2.2.2 (.string "infinity") rfl⟩

/-- C18. Well-formedness is established by every producer: the four constructors
return a well-formed date; for every well-formed receiver and every input the receiver
after `Scan` is well-formed, whether `Scan` returned an error or not; and for every
receiver at all, a receiver left with `Valid` false by `Scan` holds 1 January of
year 1. -/
theorem scan_preserves_WF :
    WF NewNullDate ∧ (∀ (y : Int) (m : time.Month) (day : Int), WF (NewDate y m day)) ∧
      WF NewInfinityDate ∧ WF NewNegativeInfinityDate ∧
      (∀ (d : Date) (src : Src), WF d → WF (d.Scan src).1) ∧
      ∀ (d : Date) (src : Src), (d.Scan src).1.Valid = false →
        (d.Scan src).1.Year = 1 ∧ (d.Scan src).1.Month = time.January ∧
          (d.Scan src).1.Day = 1 := by
  refine ⟨by decide, ?_, by decide, by decide, ?_, ?_⟩
  · intro y m day
    simp [WF, NewDate, None]
  · intro d src hd
    obtain ⟨him, hv⟩ := hd
    cases src with
    | nil => exact ⟨him, fun h => ⟨rfl, rfl, rfl, (hv h).2.2.2⟩⟩
    | time t => exact ⟨him, fun h => Bool.noConfusion h⟩
    | string s =>
      by_cases h1 : s = infinityStr
      · rw [h1, scan_infinityStr]; decide
      · by_cases h2 : s = negativeInfinityStr
        · rw [h2, scan_negativeInfinityStr]; decide
        · rw [scan_rejected_string d s h1 h2]
          exact ⟨him, fun h => ⟨rfl, rfl, rfl, (hv h).2.2.2⟩⟩
    | int64 n => exact ⟨him, fun h => ⟨rfl, rfl, rfl, (hv h).2.2.2⟩⟩
    | other g t => exact ⟨him, fun h => ⟨rfl, rfl, rfl, (hv h).2.2.2⟩⟩
  · intro d src h
    cases src with
    | nil => exact ⟨rfl, rfl, rfl⟩
    | time t => exact Bool.noConfusion h
    | string s =>
      by_cases h1 : s = infinityStr
      · rw [h1, scan_infinityStr] at h; exact Bool.noConfusion h
      · by_cases h2 : s = negativeInfinityStr
        · rw [h2, scan_negativeInfinityStr] at h; exact Bool.noConfusion h
        · rw [scan_rejected_string d s h1 h2]
          exact ⟨rfl, rfl, rfl⟩
    | int64 n => exact ⟨rfl, rfl, rfl⟩
    | other g t => exact ⟨rfl, rfl, rfl⟩

/-- C18 (witness): a rejected text scanned into the well-formed `NewDate(2042, April,
23)`, and an absent input scanned into a zero-valued receiver. -/
theorem scan_preserves_WF_witness :
    WF (NewDate 2042 time.April 23) ∧
      WF ((NewDate 2042 time.April 23).Scan (.string "sike")).1 ∧
      (zeroDate.Scan .nil).1.Valid = false ∧
      ((zeroDate.Scan .nil).1.Year = 1 ∧ (zeroDate.Scan .nil).1.Month = time.January ∧
        (zeroDate.Scan .nil).1.Day = 1) :=
  ⟨by decide,
    scan_preserves_WF.2.2.2.2.1 (NewDate 2042 time.April 23) (.string "sike") (by decide),
    rfl, scan_preserves_WF.2.2.2.2.2 zeroDate .nil rfl⟩

/-- C19. `Scan` never clears the status fields of a reused receiver: for every receiver
and every input, `Valid` true before `Scan` is true after it, and when the input is
absent, a timestamp, or rejected with an error, `InfinityModifier` after `Scan` equals
`InfinityModifier` before it; `InfinityModifier` changes only on one of the two
sentinel texts. -/
theorem scan_keeps_status (d : Date) (src : Src) :
    (d.Valid = true → (d.Scan src).1.Valid = true) ∧
      ((src = .nil ∨ (∃ t, src = .time t) ∨ (d.Scan src).2 ≠ none) →
        (d.Scan src).1.InfinityModifier = d.InfinityModifier) ∧
      ((d.Scan src).1.InfinityModifier ≠ d.InfinityModifier →
        src = .string "infinity" ∨ src = .string "-infinity") := by
  cases src with
  | nil => exact ⟨fun h => h, fun _ => rfl, fun h => absurd rfl h⟩
  | time t => exact ⟨fun _ => rfl, fun _ => rfl, fun h => absurd rfl h⟩
  | string s =>
    by_cases h1 : s = infinityStr
    · subst h1
      refine ⟨fun _ => rfl, ?_, fun _ => Or.inl rfl⟩
      intro h
      rcases h with h | ⟨t, h⟩ | h
      · cases h
      · cases h
      · exact absurd rfl h
    · by_cases h2 : s = negativeInfinityStr
      · subst h2
        refine ⟨fun _ => rfl, ?_, fun _ => Or.inr rfl⟩
        intro h
        rcases h with h | ⟨t, h⟩ | h
        · cases h
        · cases h
        · exact absurd rfl h
      · rw [scan_rejected_string d s h1 h2]
        exact ⟨fun h => h, fun _ => rfl, fun h => absurd rfl h⟩
  | int64 n => exact ⟨fun h => h, fun _ => rfl, fun h => absurd rfl h⟩
  | other g t => exact ⟨fun h => h, fun _ => rfl, fun h => absurd rfl h⟩

/-- C19 (witness): an absent input and a rejected `int64` scanned into a receiver
that held positive infinity leave `Valid` true and `InfinityModifier = Infinity`. -/
theorem scan_keeps_status_witness :
    NewInfinityDate.Valid = true ∧ (NewInfinityDate.Scan .nil).1.Valid = true ∧
      (NewInfinityDate.Scan .nil).1.InfinityModifier = Infinity ∧
      (NewInfinityDate.Scan (.int64 42)).2 ≠ none ∧
      (NewInfinityDate.Scan (.int64 42)).1.InfinityModifier = Infinity :=
  ⟨rfl, (scan_keeps_status NewInfinityDate .nil).1 rfl,
    (scan_keeps_status NewInfinityDate .nil).2.1 (Or.inl rfl),
    by decide,
    (scan_keeps_status NewInfinityDate (.int64 42)).2.1 (Or.inr (Or.inr (by decide)))⟩

end datetype
